import Mathlib

/-!
LiteLogCpp: the logging core of `src/LiteLog.hpp`.

A shallow embedding of class `Logger`.  The member variables become the fields of
the structure `Logger`; every member function becomes a function that takes the
logger (and, where the code touches them, the console and the file system) and
returns the values after the call.

Conventions of the embedding:

* `std::string` and `const char *` are `String`; a `const char *` that may be null
  is `Option String`.
* `std::unordered_map<std::string, V>` is a function `String → Option V`;
  `m[k] = v` is `mapInsert`, `m.find(k)` is application.
* `std::unique_ptr<std::ofstream>` is `Option Ofstream`; the stream remembers the
  path it was opened on, which identifies the file that receives its output.
* The host primitives the class calls (`stat`, `mkdir`, the `std::ofstream`
  constructor, stream insertion into a file) are the fields of `Host`, over an
  arbitrary type of file-system states.
* `std::cerr` is the string of everything written to it so far; `std::endl` is a
  line feed (flushing has no effect in the model, output is unbuffered).
* The recursive mutex is not modelled: every function is one atomic step.
-/

set_option autoImplicit false

namespace LiteLog

/-! ## String primitives of `std::string` used by the class -/

/-- Position of the last character of `s` satisfying `p`, if there is one. -/
def findLastIdx (p : Char → Bool) : List Char → Option Nat
  | [] => none
  | c :: cs =>
    match findLastIdx p cs with
    | some i => some (i + 1)
    | none => if p c then some 0 else none

/-- `s.find_last_of(chars)`: position of the last character of `s` that occurs in
`chars`; `none` is `std::string::npos`. -/
def find_last_of (s : String) (chars : List Char) : Option Nat :=
  findLastIdx (fun c => chars.contains c) s.data

/-- Position of the first occurrence of `needle` in a list of characters. -/
def findSub (needle : List Char) : List Char → Option Nat
  | [] => if needle.isEmpty then some 0 else none
  | c :: cs =>
    if needle.isPrefixOf (c :: cs) then some 0
    else (findSub needle cs).map (fun i => i + 1)

/-- `s.find(needle)`: position of the first occurrence; `none` is `npos`. -/
def find (s needle : String) : Option Nat :=
  findSub needle.data s.data

/-- `s.substr(pos)`, for `pos ≤ s.size()`. -/
def substrFrom (s : String) (pos : Nat) : String :=
  ⟨s.data.drop pos⟩

/-- `s.substr(0, n)`. -/
def substrTo (s : String) (n : Nat) : String :=
  ⟨s.data.take n⟩

/-- `s.back()`: the last character; `none` when `s` is empty, where the C++ call
has undefined behaviour. -/
def back? (s : String) : Option Char :=
  s.data.getLast?

/-- `s.empty()`. -/
def empty (s : String) : Bool :=
  s.data.isEmpty

/-- Output of `os << std::setfill('0') << std::setw(w) << text`: `text` padded on
the left with `'0'` up to width `w`. -/
def setw0 (w : Nat) (text : String) : String :=
  ⟨List.replicate (w - text.data.length) '0' ++ text.data⟩

/-! ## Enumerations and ANSI codes -/

/-- Enumeration `LogLevel`. -/
inductive LogLevel where
  | Trace
  | Debug
  | Info
  | Warn
  | Error
  | Fatal
  | OFF
  deriving DecidableEq, Repr

/-- The underlying integer of a `LogLevel` enumerator. -/
def LogLevel.toNat : LogLevel → Nat
  | .Trace => 0
  | .Debug => 1
  | .Info => 2
  | .Warn => 3
  | .Error => 4
  | .Fatal => 5
  | .OFF => 6

instance : LT LogLevel := ⟨fun a b => a.toNat < b.toNat⟩

instance : LE LogLevel := ⟨fun a b => a.toNat ≤ b.toNat⟩

instance (a b : LogLevel) : Decidable (a < b) :=
  inferInstanceAs (Decidable (a.toNat < b.toNat))

instance (a b : LogLevel) : Decidable (a ≤ b) :=
  inferInstanceAs (Decidable (a.toNat ≤ b.toNat))

/-- Enumeration `TimestampPrecision`. -/
inductive TimestampPrecision where
  | SECONDS
  | MILLISECONDS
  | MICROSECONDS
  deriving DecidableEq, Repr

/-- Enumeration `LocationDisplayMode`. -/
inductive LocationDisplayMode where
  | FULL_PATH
  | FILENAME_ONLY
  | RELATIVE_PATH
  | NONE
  deriving DecidableEq, Repr

/-- Enumeration `ColorMode`. -/
inductive ColorMode where
  | OFF
  | TAG
  | LINE
  deriving DecidableEq, Repr

namespace ansi

def reset : String := "\x1b[0m"
def bold : String := "\x1b[1m"
def black : String := "\x1b[30m"
def red : String := "\x1b[31m"
def green : String := "\x1b[32m"
def yellow : String := "\x1b[33m"
def blue : String := "\x1b[34m"
def magenta : String := "\x1b[35m"
def cyan : String := "\x1b[36m"
def white : String := "\x1b[37m"

end ansi

/-- Struct `TagConfig`. -/
structure TagConfig where
  color : String
  style : String
  enabled : Bool
  deriving DecidableEq, Repr

/-- The stream object behind `file_output_`: the path it was constructed on and
the answer of `is_open()`. -/
structure Ofstream where
  path : String
  is_open : Bool
  deriving DecidableEq, Repr

/-- `m[k] = v` on an `unordered_map`. -/
def mapInsert {V : Type} (m : String → Option V) (k : String) (v : V) : String → Option V :=
  fun k' => if k' = k then some v else m k'

/-! ## The logger state -/

/-- The member variables of class `Logger` (the mutex apart). -/
structure Logger where
  current_level_ : LogLevel
  console_output_ : Bool
  file_output_ : Option Ofstream
  file_path_ : String
  tag_levels_ : String → Option LogLevel
  tag_configs_ : String → Option TagConfig
  color_mode_ : ColorMode
  show_timestamp_ : Bool
  timestamp_precision_ : TimestampPrecision
  location_mode_ : LocationDisplayMode
  base_path_ : String
  show_tags_ : Bool

/-- `Logger::setLevel`. -/
def setLevel (lg : Logger) (level : LogLevel) : Logger :=
  { lg with current_level_ := level }

/-- `Logger::setTagLevel`. -/
def setTagLevel (lg : Logger) (tag : String) (level : LogLevel) : Logger :=
  { lg with tag_levels_ := mapInsert lg.tag_levels_ tag level }

/-- `Logger::consoleOutput`. -/
def consoleOutput (lg : Logger) (console_output : Bool) : Logger :=
  { lg with console_output_ := console_output }

/-- `Logger::closeLogFile`. -/
def closeLogFile (lg : Logger) : Logger :=
  { lg with file_output_ := none, file_path_ := "" }

/-- `Logger::configureTag` (the defaults `style = ""`, `enabled = true` are given
by the caller). -/
def configureTag (lg : Logger) (tag : String) (color : String) (style : String)
    (enabled : Bool) : Logger :=
  { lg with tag_configs_ := mapInsert lg.tag_configs_ tag ⟨color, style, enabled⟩ }

/-- `Logger::enableTag`. -/
def enableTag (lg : Logger) (tag : String) (enabled : Bool) : Logger :=
  match lg.tag_configs_ tag with
  | some cfg =>
    { lg with tag_configs_ := mapInsert lg.tag_configs_ tag { cfg with enabled := enabled } }
  | none =>
    { lg with tag_configs_ := mapInsert lg.tag_configs_ tag ⟨ansi.cyan, "", enabled⟩ }

/-- `Logger::setColorMode`. -/
def setColorMode (lg : Logger) (color_mode : ColorMode) : Logger :=
  { lg with color_mode_ := color_mode }

/-- `Logger::enableTimestamp`. -/
def enableTimestamp (lg : Logger) (enabled : Bool) : Logger :=
  { lg with show_timestamp_ := enabled }

/-- `Logger::setTimestampPrecision`. -/
def setTimestampPrecision (lg : Logger) (precision : TimestampPrecision) : Logger :=
  { lg with timestamp_precision_ := precision }

/-- `Logger::setLocationMode`. -/
def setLocationMode (lg : Logger) (mode : LocationDisplayMode) (base_path : String) : Logger :=
  { lg with location_mode_ := mode, base_path_ := base_path }

/-- `Logger::enableTags`. -/
def enableTags (lg : Logger) (enabled : Bool) : Logger :=
  { lg with show_tags_ := enabled }

/-- `Logger::getLogFilePath`. -/
def getLogFilePath (lg : Logger) : String :=
  lg.file_path_

/-- The constructor `Logger::Logger()`: the member initialisers, then the five
`configureTag` calls of its body. -/
def Logger.init : Logger :=
  let lg : Logger :=
    { current_level_ := .Info
      console_output_ := true
      file_output_ := none
      file_path_ := ""
      tag_levels_ := fun _ => none
      tag_configs_ := fun _ => none
      color_mode_ := .TAG
      show_timestamp_ := true
      timestamp_precision_ := .MILLISECONDS
      location_mode_ := .FILENAME_ONLY
      base_path_ := ""
      show_tags_ := true }
  let lg := configureTag lg "NETWORK" ansi.blue "" true
  let lg := configureTag lg "DATABASE" ansi.magenta "" true
  let lg := configureTag lg "UI" ansi.green "" true
  let lg := configureTag lg "SYSTEM" ansi.yellow "" true
  configureTag lg "SECURITY" ansi.red "" true

/-- `Logger::getEffectiveLevel`. -/
def getEffectiveLevel (lg : Logger) (tag : Option String) : LogLevel :=
  match tag with
  | none => lg.current_level_
  | some t =>
    match lg.tag_levels_ t with
    | some l => l
    | none => lg.current_level_

/-- `Logger::getTagConfig`. -/
def getTagConfig (lg : Logger) (tag : String) : TagConfig :=
  match lg.tag_configs_ tag with
  | some cfg => cfg
  | none => ⟨ansi.cyan, "", true⟩

/-- `Logger::levelToString`. -/
def levelToString : LogLevel → String
  | .Trace => "TRACE"
  | .Debug => "DEBUG"
  | .Info => "INFO"
  | .Warn => "WARN"
  | .Error => "ERROR"
  | .Fatal => "FATAL"
  | .OFF => "OFF"

/-- `Logger::getLevelColor`. -/
def getLevelColor : LogLevel → String
  | .Trace => ansi.cyan
  | .Debug => ansi.blue
  | .Info => ansi.green
  | .Warn => ansi.yellow
  | .Error => ansi.red
  | .Fatal => ansi.magenta
  | .OFF => ansi.white

/-- `Logger::getLevelStyle`. -/
def getLevelStyle : LogLevel → String
  | .Fatal => ansi.bold
  | .Error => ansi.bold
  | _ => ""

/-! ## Clock readings and timestamps -/

/-- The fields of `std::tm` that the formats used here read: the answer of
`localtime_r` for a local date from the year 1900 on, where no field is negative. -/
structure Tm where
  /-- Years since 1900. -/
  tm_year : Nat
  /-- Months since January, `0..11`. -/
  tm_mon : Nat
  tm_mday : Nat
  tm_hour : Nat
  tm_min : Nat
  tm_sec : Nat
  deriving DecidableEq, Repr

/-- One reading of `std::chrono::system_clock::now()`: the count of nanoseconds
since the epoch the time point holds, a signed 64-bit integer (negative for an
instant before the epoch, and for a host clock beyond 2262-04-11, where the count
has wrapped), and the local broken-down time `localtime_r` gives for
`to_time_t` of it. -/
structure TimePoint where
  since_epoch : Int
  tm : Tm
  deriving DecidableEq, Repr

/-- The value a signed 64-bit integer holds for the number `n`: `n` itself when
`-2^63 ≤ n < 2^63`, and `n` wrapped into that range otherwise. -/
def wrap64 (n : Int) : Int :=
  (n + 9223372036854775808) % 18446744073709551616 - 9223372036854775808

/-- The count `system_clock::now()` holds when the host clock reads `tv_sec`
seconds and `tv_nsec` nanoseconds since the epoch: both are combined in the signed
64-bit count of nanoseconds. -/
def system_clock_count (tv_sec tv_nsec : Int) : Int :=
  wrap64 (tv_sec * 1000000000 + tv_nsec)

/-- `system_clock::to_time_t` on a count of nanoseconds: the seconds, truncated
towards zero. -/
def to_time_t (since_epoch : Int) : Int :=
  Int.tdiv since_epoch 1000000000

/-- Output of `std::put_time(&tm, "%Y-%m-%d %H:%M:%S")`. -/
def put_time (tm : Tm) : String :=
  toString (tm.tm_year + 1900) ++ "-" ++ setw0 2 (toString (tm.tm_mon + 1)) ++ "-" ++
    setw0 2 (toString tm.tm_mday) ++ " " ++ setw0 2 (toString tm.tm_hour) ++ ":" ++
    setw0 2 (toString tm.tm_min) ++ ":" ++ setw0 2 (toString tm.tm_sec)

/-- Result of `std::strftime(date_buffer, maxsize, "%Y%m%d", &tm)`: the text stored
in the buffer, or `none` when it does not fit in `maxsize` bytes with its
terminator (the call then returns 0 and leaves the buffer unspecified). -/
def strftime_Ymd (maxsize : Nat) (tm : Tm) : Option String :=
  let text := toString (tm.tm_year + 1900) ++ setw0 2 (toString (tm.tm_mon + 1)) ++
    setw0 2 (toString tm.tm_mday)
  if text.length + 1 ≤ maxsize then some text else none

/-- `Logger::getHighPrecisionTimestamp`, on the clock reading `now`.  The count is
signed and `duration_cast` truncates towards zero, so that the part below the
second, and with it the printed milliseconds or microseconds, is negative for a
negative count. -/
def getHighPrecisionTimestamp (lg : Logger) (now : TimePoint) : String :=
  let oss := "[" ++ put_time now.tm
  -- sec_duration = duration_cast<seconds>(since_epoch)
  let sec_duration := Int.tdiv now.since_epoch 1000000000
  -- since_epoch -= sec_duration
  let since_epoch := now.since_epoch - sec_duration * 1000000000
  let oss :=
    match lg.timestamp_precision_ with
    | .MILLISECONDS => oss ++ "." ++ setw0 3 (toString (Int.tdiv since_epoch 1000000))
    | .MICROSECONDS => oss ++ "." ++ setw0 6 (toString (Int.tdiv since_epoch 1000))
    | .SECONDS => oss
  oss ++ "]"

/-! ## Location information -/

/-- `Logger::getLocationInfo`. -/
def getLocationInfo (lg : Logger) (file : Option String) (function : Option String)
    (line : Int) : String :=
  match file, function with
  | some file, some function =>
    let file_str : String :=
      if lg.location_mode_ = .FILENAME_ONLY then
        match find_last_of file ['/', '\\'] with
        | some pos => substrFrom file (pos + 1)
        | none => file
      else if lg.location_mode_ = .RELATIVE_PATH ∧ ¬ empty lg.base_path_ then
        let normalized_base :=
          if back? lg.base_path_ ≠ some '/' ∧ back? lg.base_path_ ≠ some '\\' then
            lg.base_path_ ++ "/"
          else lg.base_path_
        if find file normalized_base = some 0 then substrFrom file normalized_base.length
        else file
      else file
    "[" ++ file_str ++ ":" ++ toString line ++ "-" ++ function ++ "]"
  | _, _ => ""

/-! ## The host: directories and files -/

/-- Outcome of `mkdir(path, 0755)`: `result == 0`, or failure with
`errno == EEXIST`, or failure with another `errno`. -/
inductive MkdirResult where
  | ok
  | eexist
  | error
  deriving DecidableEq, Repr

/-- The host primitives the class calls, over file-system states `FS`. -/
structure Host (FS : Type) where
  /-- Answer of `stat(path, &st) == 0 && S_ISDIR(st.st_mode)`. -/
  stat_isdir : FS → String → Bool
  /-- Call of `mkdir(path, 0755)`: its outcome and the file system after it. -/
  mkdir : FS → String → MkdirResult × FS
  /-- Construction `std::ofstream(path, mode)`, `mode` being `out | ate | app` when
  the flag is set and `out | ate` otherwise: `none` when `is_open()` is false
  afterwards, else the file system with the file created or truncated. -/
  ofstream_open : FS → String → Bool → Option FS
  /-- Stream insertion of a text into the stream opened on a path. -/
  ofstream_write : FS → String → String → FS

/-- What the logger writes to: the text sent to `std::cerr` so far and the file
system. -/
structure World (FS : Type) where
  cerr : String
  fs : FS

/-- The ways a call can fail to return a value. -/
inductive Fault where
  /-- Undefined behaviour in C++ (`back()` of an empty string, reading a buffer
  `strftime` did not fill). -/
  | undefinedBehaviour
  /-- The recursion bound of the model was exhausted. -/
  | outOfFuel
  deriving DecidableEq, Repr

variable {FS : Type}

/-- `Logger::directoryExists` (POSIX branch). -/
def directoryExists (H : Host FS) (fs : FS) (path : String) : Bool :=
  H.stat_isdir fs path

/-- `Logger::createDirectoryRecursive` with an explicit bound on the recursion
depth: `none` when the bound is exhausted, else the returned boolean and the file
system after the call. -/
def createDirectoryRecursiveFuel (H : Host FS) : Nat → FS → String → Option (Bool × FS)
  | 0, _, _ => none
  | fuel + 1, fs, path =>
    if empty path then some (true, fs)
    else if directoryExists H fs path then some (true, fs)
    else
      let parentDone : Option (Bool × FS) :=
        match find_last_of path ['/', '\\'] with
        | some sep_pos =>
          let parent := substrTo path sep_pos
          if ¬ empty parent then createDirectoryRecursiveFuel H fuel fs parent
          else some (true, fs)
        | none => some (true, fs)
      match parentDone with
      | none => none
      | some (false, fs1) => some (false, fs1)
      | some (true, fs1) =>
        let r := H.mkdir fs1 path
        some (r.1 = .ok ∨ r.1 = .eexist, r.2)

/-- `Logger::createDirectoryRecursive`: every recursive call is on a strictly
shorter path, so a depth of `path.length + 1` is allowed. -/
def createDirectoryRecursive (H : Host FS) (fs : FS) (path : String) : Option (Bool × FS) :=
  createDirectoryRecursiveFuel H (path.length + 1) fs path

/-- `Logger::setLogFile`: the returned boolean, the logger and the file system
after the call.  The stream constructor does not throw, so the `catch` branch is
not taken. -/
def setLogFile (H : Host FS) (lg : Logger) (fs : FS) (file_path : String) (append : Bool) :
    Bool × Logger × FS :=
  -- file_output_.reset()
  let lg := { lg with file_output_ := none }
  match H.ofstream_open fs file_path append with
  | none =>
    -- !new_file->is_open()
    (false, lg, fs)
  | some fs1 =>
    (true, { lg with file_output_ := some ⟨file_path, true⟩, file_path_ := file_path }, fs1)

/-- The directory step of `Logger::setLogDirectory` (lines 229 to 236): the
directory is used when it exists and created otherwise.  The result is whether the
step succeeded, with the file system after it; `none` when the recursion bound of
`createDirectoryRecursive` is exhausted. -/
def ensureDirectory (H : Host FS) (fs : FS) (dir_path : String) : Option (Bool × FS) :=
  if ¬ directoryExists H fs dir_path then createDirectoryRecursive H fs dir_path
  else some (true, fs)

/-- The variable `filename` of `Logger::setLogDirectory` (lines 238 to 260), on the
clock reading `now`; `none` when `strftime` does not fill the 16-byte buffer
that is then read. -/
def logFileName (now : TimePoint) ( file_prefix : String) (daily_rotation : Bool) :
    Option String :=
  if daily_rotation then
    match strftime_Ymd 16 now.tm with
    | some date_buffer => some ( file_prefix ++ "_" ++ date_buffer ++ ".log")
    | none => none
  else some ( file_prefix ++ ".log")

/-- The variable `full_path` of `Logger::setLogDirectory` (lines 262 to 268);
`none` when `dir_path` is empty, where `dir_path.back()` is undefined. -/
def fullPath (dir_path filename : String) : Option String :=
  match back? dir_path with
  | some c => some ((if c ≠ '/' ∧ c ≠ '\\' then dir_path ++ "/" else dir_path) ++ filename)
  | none => none

/-- `Logger::setLogDirectory`, on the clock reading `now`: the returned boolean,
the logger and the file system after the call, or the fault that keeps the call
from returning. -/
def setLogDirectory (H : Host FS) (lg : Logger) (fs : FS) (now : TimePoint) (dir_path : String)
    ( file_prefix : String) (append : Bool) (daily_rotation : Bool) :
    Except Fault (Bool × Logger × FS) :=
  match ensureDirectory H fs dir_path with
  | none => .error .outOfFuel
  | some (false, fs1) => .ok (false, lg, fs1)
  | some (true, fs1) =>
    match logFileName now file_prefix daily_rotation with
    | none => .error .undefinedBehaviour
    | some filename =>
      match fullPath dir_path filename with
      | none => .error .undefinedBehaviour
      | some full_path => .ok (setLogFile H lg fs1 full_path append)

/-! ## Emission -/

/-- The variable `location_info` of `Logger::log` (lines 400 to 405). -/
def location_info (lg : Logger) (file : Option String) (line : Int)
    (function : Option String) : String :=
  if file.isSome ∧ function.isSome ∧ lg.location_mode_ ≠ .NONE then
    getLocationInfo lg file function line
  else ""

/-- The block of `Logger::log` that builds `log_entry` (lines 393 to 459), for the
formatted text `message` and the clock reading `now`. -/
def log_entry (lg : Logger) (now : TimePoint) (level : LogLevel) (tag : Option String)
    (file : Option String) (line : Int) (function : Option String) (message : String) :
    String :=
  let time_str := if lg.show_timestamp_ then getHighPrecisionTimestamp lg now else ""
  let location_info := location_info lg file line function
  let log_stream := ""
  let log_stream :=
    if lg.color_mode_ = .LINE then log_stream ++ getLevelColor level ++ getLevelStyle level
    else log_stream
  let log_stream := log_stream ++ time_str
  let log_stream :=
    if lg.color_mode_ = .TAG then
      log_stream ++ getLevelColor level ++ getLevelStyle level ++ "[" ++ levelToString level ++
        "]" ++ ansi.reset
    else log_stream ++ "[" ++ levelToString level ++ "]"
  let log_stream :=
    match tag with
    | some t =>
      if lg.show_tags_ ∧ t ≠ "" then
        if lg.color_mode_ = .TAG then
          let config := getTagConfig lg t
          log_stream ++ config.style ++ config.color ++ "[" ++ t ++ "]" ++ ansi.reset
        else log_stream ++ "[" ++ t ++ "]"
      else log_stream
    | none => log_stream
  let log_stream := log_stream ++ location_info
  let log_stream := log_stream ++ " " ++ message
  let log_stream := if lg.color_mode_ = .LINE then log_stream ++ ansi.reset else log_stream
  log_stream

/-- The block of `Logger::log` that writes `entry` to the sinks (lines 461 to
483). -/
def dispatch (H : Host FS) (lg : Logger) (w : World FS) (entry : String) : World FS :=
  let w := if lg.console_output_ then { w with cerr := w.cerr ++ entry ++ "\n" } else w
  match lg.file_output_ with
  | some out =>
    if out.is_open then { w with fs := H.ofstream_write w.fs out.path (entry ++ "\n") } else w
  | none => w

/-- The filter of `Logger::log` (lines 355 to 376): `false` when one of its three
early returns is taken (the level is `OFF`; the tag has a `TagConfig` that is not
enabled; the level is below the effective level), `true` when the call goes on to
format its message. -/
def admitted (lg : Logger) (level : LogLevel) (tag : Option String) : Bool :=
  if level = .OFF then false
  else
    let disabled : Bool :=
      match tag with
      | some t =>
        match lg.tag_configs_ t with
        | some cfg => !cfg.enabled
        | none => false
      | none => false
    if disabled then false
    else
      let effective_level := getEffectiveLevel lg tag
      if level < effective_level then false else true

/-- `Logger::log`: the logger and the sinks after the call.  The argument
`formatted` is the outcome of formatting `format` with the variadic arguments:
`none` when `vsnprintf` reports an error (`needed_size < 0`), else the formatted
text. -/
def log (H : Host FS) (lg : Logger) (w : World FS) (now : TimePoint) (level : LogLevel)
    (tag : Option String) (file : Option String) (line : Int) (function : Option String)
    (formatted : Option String) : Logger × World FS :=
  if ¬ admitted lg level tag then (lg, w)
  else
    match formatted with
    | none => (lg, w)
    | some message =>
      let entry := log_entry lg now level tag file line function message
      (lg, dispatch H lg w entry)

/-- The loggers reachable from the freshly constructed one by calls of
`setLogFile`, `setLogDirectory` and `closeLogFile`, each on an arbitrary file
system, so that each open and each directory creation may succeed or fail. -/
inductive SinkReachable (H : Host FS) : Logger → Prop where
  | init : SinkReachable H Logger.init
  | setLogFile (lg : Logger) (fs : FS) (file_path : String) (append : Bool) :
      SinkReachable H lg → SinkReachable H (setLogFile H lg fs file_path append).2.1
  | setLogDirectory (lg : Logger) (fs : FS) (now : TimePoint) (dir_path : String)
      ( file_prefix : String) (append daily_rotation : Bool) (r : Bool × Logger × FS) :
      SinkReachable H lg →
      setLogDirectory H lg fs now dir_path file_prefix append daily_rotation = .ok r →
      SinkReachable H r.2.1
  | closeLogFile (lg : Logger) : SinkReachable H lg → SinkReachable H (closeLogFile lg)

/-! ## A small file system, for evaluating the functions on concrete inputs -/

/-- What a path names in the model file system. -/
inductive Node where
  | dir
  | file (content : String)
  deriving DecidableEq, Repr

/-- The model file system: what exists at each path string. -/
abbrev SimFS : Type := String → Option Node

/-- Whether the directory that is to hold `path` exists: the part of `path` before
its last separator names a directory.  A path without separator lies in the
working directory, one whose only separator is the first character in the root;
both exist. -/
def parentIsDir (fs : SimFS) (path : String) : Bool :=
  match find_last_of path ['/', '\\'] with
  | some pos => if pos = 0 then true else fs (substrTo path pos) = some Node.dir
  | none => true

/-- The model file system as a host: `mkdir` reports `EEXIST` when anything exists
at the path, succeeds when the parent is a directory and fails otherwise; a file
can be opened for writing when its parent is a directory and the path is not a
directory; writing appends to the file. -/
def simHost : Host SimFS where
  stat_isdir := fun fs path => fs path = some Node.dir
  mkdir := fun fs path =>
    match fs path with
    | some _ => (.eexist, fs)
    | none =>
      if parentIsDir fs path then
        (.ok, fun q => if q = path then some Node.dir else fs q)
      else (.error, fs)
  ofstream_open := fun fs path append =>
    match fs path with
    | some Node.dir => none
    | some (Node.file content) =>
      some (fun q => if q = path then some (Node.file (if append then content else "")) else fs q)
    | none =>
      if parentIsDir fs path then
        some (fun q => if q = path then some (Node.file "") else fs q)
      else none
  ofstream_write := fun fs path text =>
    match fs path with
    | some (Node.file content) =>
      fun q => if q = path then some (Node.file (content ++ text)) else fs q
    | _ => fs

/-- A file system holding only the working directory `"."`. -/
def simFS0 : SimFS :=
  fun q => if q = "." then some Node.dir else none

/-- The clock reading 2024-01-02 03:04:05.006007 local time. -/
def sampleTime : TimePoint :=
  { since_epoch := 1704164645006007000
    tm := { tm_year := 124, tm_mon := 0, tm_mday := 2, tm_hour := 3, tm_min := 4, tm_sec := 5 } }

/-- The clock reading half a second before the epoch, in UTC: the count is
-500000000 and `to_time_t` of it is 0, the date 1970-01-01 00:00:00. -/
def preEpochTime : TimePoint :=
  { since_epoch := -500000000
    tm := { tm_year := 70, tm_mon := 0, tm_mday := 1, tm_hour := 0, tm_min := 0, tm_sec := 0 } }

/-- The clock reading of a host whose clock shows 2500-01-01 00:00:00 UTC, which is
16725225600 seconds after the epoch: the 64-bit count has wrapped to
-1721518473709551616, and `to_time_t` of it, -1721518473, is the date 1915-06-14
00:25:27. -/
def wrappedTime : TimePoint :=
  { since_epoch := system_clock_count 16725225600 0
    tm := { tm_year := 15, tm_mon := 5, tm_mday := 14, tm_hour := 0, tm_min := 25,
            tm_sec := 27 } }

/-- The fresh logger after `setLogFile("a.log", true)` on `simFS0`: the returned
boolean, the logger with its stream open on `"a.log"`, and the file system. -/
def openedSample : Bool × Logger × SimFS :=
  setLogFile simHost Logger.init simFS0 "a.log" true

/-- A file system in which `"./x"` is a directory and `"./x/app.log"` is a
directory too, so that no log file of that name can be opened. -/
def simFSBlocked : SimFS :=
  fun q => if q = "." ∨ q = "./x" ∨ q = "./x/app.log" then some Node.dir else none

/-! ## Notions of the specification -/

/-- The character of the decimal digit `n % 10`. -/
def digit (n : Nat) : Char :=
  Char.ofNat (48 + n % 10)

/-- The date as eight decimal digits: four of the year, two of the month, two of
the day, each zero-padded. -/
def YYYYMMDD (year month day : Nat) : String :=
  ⟨[digit (year / 1000), digit (year / 100), digit (year / 10), digit year,
    digit (month / 10), digit month, digit (day / 10), digit day]⟩

/-- A path separator: `'/'` or `'\\'`. -/
def isSeparator (c : Char) : Prop :=
  c = '/' ∨ c = '\\'

/-- The string ends with a path separator. -/
def endsWithSeparator (s : String) : Prop :=
  ∃ (pre : String) (c : Char), isSeparator c ∧ s = pre ++ String.singleton c

/-- The variable `time_str` of `Logger::log` (line 398), on the clock reading
`now`. -/
def time_str (lg : Logger) (now : TimePoint) : String :=
  if lg.show_timestamp_ then getHighPrecisionTimestamp lg now else ""

/-- The name in the level bracket, as the specification lists it for the levels
`Trace` to `Fatal`; `OFF` is no emission level and has none. -/
def levelName : LogLevel → String
  | .Trace => "TRACE"
  | .Debug => "DEBUG"
  | .Info => "INFO"
  | .Warn => "WARN"
  | .Error => "ERROR"
  | .Fatal => "FATAL"
  | .OFF => ""

/-- The colour and style codes of a level, as the specification lists them:
Trace cyan, Debug blue, Info green, Warn yellow, Error red and bold, Fatal magenta
and bold. -/
def levelCode : LogLevel → String
  | .Trace => ansi.cyan
  | .Debug => ansi.blue
  | .Info => ansi.green
  | .Warn => ansi.yellow
  | .Error => ansi.red ++ ansi.bold
  | .Fatal => ansi.magenta ++ ansi.bold
  | .OFF => ""

/-- The tag bracket of the specification: `[tag]` between the given codes when tags
are shown and the tag is not empty, nothing otherwise. -/
def tagBracket (lg : Logger) (tag : Option String) (tagOpen tagClose : String) : String :=
  match tag with
  | some t => if lg.show_tags_ ∧ t ≠ "" then tagOpen ++ "[" ++ t ++ "]" ++ tagClose else ""
  | none => ""

/-- The line of the specification: timestamp prefix, level bracket, tag bracket,
location suffix, a blank and the message, with the given codes around the level
bracket and around the tag bracket. -/
def lineWithCodes (lg : Logger) (now : TimePoint) (level : LogLevel) (tag : Option String)
    (file : Option String) (line : Int) (function : Option String) (message : String)
    (levelOpen levelClose tagOpen tagClose : String) : String :=
  time_str lg now ++ (levelOpen ++ "[" ++ levelName level ++ "]" ++ levelClose) ++
    tagBracket lg tag tagOpen tagClose ++ location_info lg file line function ++ " " ++ message

/-- The codes in front of the tag bracket, as the specification gives them: style
then colour of the tag's `TagConfig`, or of the default (cyan, no style) when the
tag has none; nothing when the call has no tag. -/
def tagCode (lg : Logger) (tag : Option String) : String :=
  match tag with
  | some t =>
    match lg.tag_configs_ t with
    | some cfg => cfg.style ++ cfg.color
    | none => ansi.cyan
  | none => ""

/-- The escape character that starts every ANSI code. -/
def esc : Char :=
  Char.ofNat 27

/-- The string holds no escape character, hence no ANSI escape sequence. -/
def hasNoEscape (s : String) : Prop :=
  ∀ c ∈ s.data, c ≠ esc

/-- The `w` low-order decimal digits of `n`, most significant first: `n` zero-padded
to width `w` when `n < 10 ^ w`. -/
def fixedDigits : Nat → Nat → List Char
  | 0, _ => []
  | w + 1, n => fixedDigits w (n / 10) ++ [digit n]

/-- The 19 characters `YYYY-MM-DD HH:MM:SS` of a local date and time. -/
def dateTime (tm : Tm) : String :=
  ⟨fixedDigits 4 (tm.tm_year + 1900) ++ '-' :: fixedDigits 2 (tm.tm_mon + 1) ++
    '-' :: fixedDigits 2 tm.tm_mday ++ ' ' :: fixedDigits 2 tm.tm_hour ++
    ':' :: fixedDigits 2 tm.tm_min ++ ':' :: fixedDigits 2 tm.tm_sec⟩

/-- The fractional-second suffix of the specification for an instant given in
nanoseconds since the epoch: nothing for seconds, a point and the three digits
of the millisecond part, or a point and the six digits of the microsecond part. -/
def fraction (precision : TimestampPrecision) (since_epoch : Nat) : String :=
  match precision with
  | .SECONDS => ""
  | .MILLISECONDS => "." ++ ⟨fixedDigits 3 (since_epoch / 1000000 % 1000)⟩
  | .MICROSECONDS => "." ++ ⟨fixedDigits 6 (since_epoch / 1000 % 1000000)⟩

/-- The string `p` starts with the string `b`. -/
def startsWith (p b : String) : Prop :=
  ∃ rest : String, p = b ++ rest

/-- A file system holding the working directory `"."` and a regular file `"data"`. -/
def simFSFile : SimFS :=
  fun q => if q = "." then some Node.dir else if q = "data" then some (Node.file "x") else none

/-! ## Filtering: levels and tags -/

theorem LogLevel.lt_iff (a b : LogLevel) : a < b ↔ a.toNat < b.toNat := Iff.rfl

theorem LogLevel.le_iff (a b : LogLevel) : a ≤ b ↔ a.toNat ≤ b.toNat := Iff.rfl

theorem LogLevel.not_lt_iff (a b : LogLevel) : ¬ a < b ↔ b ≤ a := by
  rw [LogLevel.lt_iff, LogLevel.le_iff]; omega

/-- A call that is not admitted changes neither the logger nor the sinks. -/
theorem log_of_not_admitted (H : Host FS) (lg : Logger) (w : World FS) (now : TimePoint)
    (level : LogLevel) (tag : Option String) (file : Option String) (line : Int)
    (function : Option String) (formatted : Option String)
    (h : admitted lg level tag = false) :
    log H lg w now level tag file line function formatted = (lg, w) := by
  simp [log, h]

/-- An admitted call whose message was formatted writes its entry to the sinks. -/
theorem log_of_admitted (H : Host FS) (lg : Logger) (w : World FS) (now : TimePoint)
    (level : LogLevel) (tag : Option String) (file : Option String) (line : Int)
    (function : Option String) (message : String)
    (h : admitted lg level tag = true) :
    log H lg w now level tag file line function (some message) =
      (lg, dispatch H lg w (log_entry lg now level tag file line function message)) := by
  simp [log, h]

/-- Admission of a call without tag: the level is not `OFF` and not below the
global level. -/
theorem admitted_none (lg : Logger) (level : LogLevel) :
    admitted lg level none = true ↔ level ≠ .OFF ∧ lg.current_level_ ≤ level := by
  simp [admitted, getEffectiveLevel, LogLevel.not_lt_iff]

/-- Admission of a tagged call: the level is not `OFF`, the tag is not disabled,
and the level is not below the effective level. -/
theorem admitted_some (lg : Logger) (level : LogLevel) (t : String) :
    admitted lg level (some t) = true ↔
      level ≠ .OFF ∧ (∀ cfg, lg.tag_configs_ t = some cfg → cfg.enabled = true) ∧
        getEffectiveLevel lg (some t) ≤ level := by
  unfold admitted
  by_cases hoff : level = .OFF
  · simp [hoff]
  · cases hc : lg.tag_configs_ t with
    | none => simp [hoff, hc, LogLevel.not_lt_iff]
    | some cfg =>
      cases he : cfg.enabled <;> simp [hoff, hc, he, LogLevel.not_lt_iff]

/-- Claim C1.  After `setLevel(s2)`: a call at a level `s1 < s2` whose tag is absent
or has no level override leaves the console and the file system as they were; a
call at a level `s3` with `s2 ≤ s3`, `s3` not `OFF`, whose tag is absent or is a
tag without level override that is not disabled, builds its entry and hands it to
`dispatch`, which writes it to the console when console output is on and to the
file sink when one is open. -/
theorem setLevel_threshold (H : Host FS) (lg : Logger) (w : World FS) (now : TimePoint)
    (s1 s2 s3 : LogLevel) (tag1 tag3 : Option String) (file : Option String) (line : Int)
    (function : Option String) (formatted : Option String) (message : String)
    (h12 : s1 < s2) (h23 : s2 ≤ s3) (h3 : s3 ≠ .OFF)
    (htag1 : ∀ t, tag1 = some t → lg.tag_levels_ t = none)
    (htag3 : ∀ t, tag3 = some t →
      lg.tag_levels_ t = none ∧ ∀ cfg, lg.tag_configs_ t = some cfg → cfg.enabled = true) :
    log H (setLevel lg s2) w now s1 tag1 file line function formatted = (setLevel lg s2, w) ∧
    log H (setLevel lg s2) w now s3 tag3 file line function (some message) =
      (setLevel lg s2,
        dispatch H (setLevel lg s2) w
          (log_entry (setLevel lg s2) now s3 tag3 file line function message)) ∧
    (dispatch H (setLevel lg s2) w
        (log_entry (setLevel lg s2) now s3 tag3 file line function message)).cerr =
      (if lg.console_output_ then
        w.cerr ++ log_entry (setLevel lg s2) now s3 tag3 file line function message ++ "\n"
      else w.cerr) ∧
    (∀ out, lg.file_output_ = some out → out.is_open = true →
      (dispatch H (setLevel lg s2) w
          (log_entry (setLevel lg s2) now s3 tag3 file line function message)).fs =
        H.ofstream_write w.fs out.path
          (log_entry (setLevel lg s2) now s3 tag3 file line function message ++ "\n")) := by
  refine ⟨?_, ?_, ?_, ?_⟩
  · apply log_of_not_admitted
    have hlt : ¬ s2 ≤ s1 := by rw [LogLevel.lt_iff] at h12; rw [LogLevel.le_iff]; omega
    cases tag1 with
    | none =>
      have := admitted_none (setLevel lg s2) s1
      cases hadm : admitted (setLevel lg s2) s1 none
      · rfl
      · exact absurd (this.mp hadm).2 (by simpa [setLevel] using hlt)
    | some t =>
      have := admitted_some (setLevel lg s2) s1 t
      cases hadm : admitted (setLevel lg s2) s1 (some t)
      · rfl
      · have h := (this.mp hadm).2.2
        simp [getEffectiveLevel, setLevel, htag1 t rfl] at h
        exact absurd h hlt
  · apply log_of_admitted
    cases tag3 with
    | none => exact (admitted_none _ _).mpr ⟨h3, by simpa [setLevel] using h23⟩
    | some t =>
      refine (admitted_some _ _ _).mpr ⟨h3, ?_, ?_⟩
      · simpa [setLevel] using (htag3 t rfl).2
      · simpa [getEffectiveLevel, setLevel, (htag3 t rfl).1] using h23
  · cases hc : lg.console_output_ <;> cases hf : lg.file_output_ <;>
      simp [dispatch, setLevel, hc, hf] <;> split <;> simp
  · intro out hout hopen
    cases hc : lg.console_output_ <;> simp [dispatch, setLevel, hc, hout, hopen]

/-- Witness for C1 on the freshly constructed logger: threshold `Warn`, an untagged
`Info` call and an untagged `Error` call. -/
theorem setLevel_threshold_witness :
    (LogLevel.Info < LogLevel.Warn ∧ LogLevel.Warn ≤ LogLevel.Error) ∧
    log simHost (setLevel Logger.init .Warn) ⟨"", simFS0⟩ sampleTime .Info none
        (some "/a/b/c.txt") 10 (some "f") (some "quiet") =
      (setLevel Logger.init .Warn, ⟨"", simFS0⟩) :=
  ⟨by decide,
    (setLevel_threshold simHost Logger.init ⟨"", simFS0⟩ sampleTime .Info .Warn .Error none none
      (some "/a/b/c.txt") 10 (some "f") (some "quiet") "loud" (by decide) (by decide)
      (by decide) (by simp) (by simp)).1⟩

/-- A tag whose `TagConfig` is not enabled is not admitted, at any level. -/
theorem admitted_of_disabled (lg : Logger) (level : LogLevel) (t : String) (cfg : TagConfig)
    (hcfg : lg.tag_configs_ t = some cfg) (hoff : cfg.enabled = false) :
    admitted lg level (some t) = false := by
  cases hadm : admitted lg level (some t)
  · rfl
  · have h := ((admitted_some lg level t).mp hadm).2.1 cfg hcfg
    rw [hoff] at h
    exact absurd h (by decide)

/-- Claim C2.  A call carrying a tag whose `TagConfig` has `enabled = false` leaves
the logger, the console and the file system as they were, at every level (also
`Fatal`) and whatever the global level and the level overrides are; `enableTag(t,
false)` and `configureTag(t, _, _, false)` put the tag `t` in that state, and a
later `setTagLevel(t, Trace)` does not lift the suppression. -/
theorem disabled_tag_suppressed (H : Host FS) (lg : Logger) (w : World FS) (now : TimePoint)
    (level : LogLevel) (t : String) (file : Option String) (line : Int)
    (function : Option String) (formatted : Option String) (color style : String) :
    (∀ cfg, lg.tag_configs_ t = some cfg → cfg.enabled = false →
      log H lg w now level (some t) file line function formatted = (lg, w)) ∧
    log H (enableTag lg t false) w now level (some t) file line function formatted =
      (enableTag lg t false, w) ∧
    log H (configureTag lg t color style false) w now level (some t) file line function
        formatted = (configureTag lg t color style false, w) ∧
    log H (setTagLevel (enableTag lg t false) t .Trace) w now level (some t) file line function
        formatted = (setTagLevel (enableTag lg t false) t .Trace, w) ∧
    log H (setTagLevel (configureTag lg t color style false) t .Trace) w now level (some t) file
        line function formatted = (setTagLevel (configureTag lg t color style false) t .Trace, w) := by
  have key : ∀ (lg1 : Logger) (cfg : TagConfig), lg1.tag_configs_ t = some cfg →
      cfg.enabled = false →
      log H lg1 w now level (some t) file line function formatted = (lg1, w) :=
    fun lg1 cfg h1 h2 => log_of_not_admitted H lg1 w now level (some t) file line function
      formatted (admitted_of_disabled lg1 level t cfg h1 h2)
  have hen : ∃ cfg, (enableTag lg t false).tag_configs_ t = some cfg ∧ cfg.enabled = false := by
    unfold enableTag
    cases hc : lg.tag_configs_ t <;> simp [mapInsert]
  have hcf : ∃ cfg, (configureTag lg t color style false).tag_configs_ t = some cfg ∧
      cfg.enabled = false := by
    simp [configureTag, mapInsert]
  obtain ⟨c1, h1, h1e⟩ := hen
  obtain ⟨c2, h2, h2e⟩ := hcf
  refine ⟨fun cfg h he => key lg cfg h he, key _ c1 h1 h1e, key _ c2 h2 h2e,
    key _ c1 ?_ h1e, key _ c2 ?_ h2e⟩
  · simpa [setTagLevel] using h1
  · simpa [setTagLevel] using h2

/-- Witness for C2: the sample program disables the tag `SYSTEM`; a `Fatal` call
with that tag writes nothing. -/
theorem disabled_tag_suppressed_witness :
    (enableTag Logger.init "SYSTEM" false).tag_configs_ "SYSTEM" =
        some ⟨ansi.yellow, "", false⟩ ∧
    log simHost (enableTag Logger.init "SYSTEM" false) ⟨"", simFS0⟩ sampleTime .Fatal
        (some "SYSTEM") (some "/a/b/c.txt") 10 (some "f") (some "down") =
      (enableTag Logger.init "SYSTEM" false, ⟨"", simFS0⟩) :=
  ⟨by decide,
    (disabled_tag_suppressed simHost (enableTag Logger.init "SYSTEM" false) ⟨"", simFS0⟩
      sampleTime .Fatal "SYSTEM" (some "/a/b/c.txt") 10 (some "f") (some "down") "" "").1
      ⟨ansi.yellow, "", false⟩ (by decide) rfl⟩

/-- Claim C3.  With an override `L` installed by `setTagLevel(t, L)` and the global
level `G` (set before or after it): a call tagged `t`, `t` not disabled, at a level
other than `OFF` is admitted exactly when `L ≤ level`, whatever `G` is; a call
carrying another tag `u` that has no override and is not disabled, or carrying no
tag, is admitted exactly when `G ≤ level`, whatever `L` is. -/
theorem tag_override_precedence (lg : Logger) (t : String) (L G level : LogLevel)
    (hlevel : level ≠ .OFF) :
    ((∀ cfg, lg.tag_configs_ t = some cfg → cfg.enabled = true) →
      (admitted (setLevel (setTagLevel lg t L) G) level (some t) = true ↔ L ≤ level) ∧
      (admitted (setTagLevel (setLevel lg G) t L) level (some t) = true ↔ L ≤ level)) ∧
    (∀ u, u ≠ t → lg.tag_levels_ u = none →
      (∀ cfg, lg.tag_configs_ u = some cfg → cfg.enabled = true) →
      (admitted (setLevel (setTagLevel lg t L) G) level (some u) = true ↔ G ≤ level) ∧
      (admitted (setTagLevel (setLevel lg G) t L) level (some u) = true ↔ G ≤ level)) ∧
    (admitted (setLevel (setTagLevel lg t L) G) level none = true ↔ G ≤ level) ∧
    (admitted (setTagLevel (setLevel lg G) t L) level none = true ↔ G ≤ level) := by
  refine ⟨fun hen => ⟨?_, ?_⟩, fun u hu hlv hen => ⟨?_, ?_⟩, ?_, ?_⟩
  · rw [admitted_some]
    simp [setLevel, setTagLevel, getEffectiveLevel, mapInsert, hlevel]
    exact fun _ => hen
  · rw [admitted_some]
    simp [setLevel, setTagLevel, getEffectiveLevel, mapInsert, hlevel]
    exact fun _ => hen
  · rw [admitted_some]
    simp [setLevel, setTagLevel, getEffectiveLevel, mapInsert, hlevel, hu, hlv]
    exact fun _ => hen
  · rw [admitted_some]
    simp [setLevel, setTagLevel, getEffectiveLevel, mapInsert, hlevel, hu, hlv]
    exact fun _ => hen
  · rw [admitted_none]; simp [setLevel, setTagLevel, hlevel]
  · rw [admitted_none]; simp [setLevel, setTagLevel, hlevel]

/-- Witness for C3, from the sample program: `NETWORK` is overridden to `Warn`
under the global level `Debug`; an `Info` call tagged `NETWORK` is not admitted, an
`Info` call tagged `UI` is. -/
theorem tag_override_precedence_witness :
    (LogLevel.Info ≠ LogLevel.OFF) ∧
    (admitted (setLevel (setTagLevel Logger.init "NETWORK" .Warn) .Debug) .Info
        (some "NETWORK") = true ↔ LogLevel.Warn ≤ LogLevel.Info) ∧
    (admitted (setLevel (setTagLevel Logger.init "NETWORK" .Warn) .Debug) .Info
        (some "UI") = true ↔ LogLevel.Debug ≤ LogLevel.Info) :=
  ⟨by decide,
    ((tag_override_precedence Logger.init "NETWORK" .Warn .Debug .Info (by decide)).1
      (by decide)).1,
    ((tag_override_precedence Logger.init "NETWORK" .Warn .Debug .Info (by decide)).2.1 "UI"
      (by decide) (by decide) (by decide)).1⟩

/-- Claim C4.  A call with `level = OFF` leaves the logger, the console and the file
system exactly as they were, in every configuration and for every tag, file,
line, function and message. -/
theorem log_off_no_output (H : Host FS) (lg : Logger) (w : World FS) (now : TimePoint)
    (tag : Option String) (file : Option String) (line : Int) (function : Option String)
    (formatted : Option String) :
    log H lg w now .OFF tag file line function formatted = (lg, w) := by
  simp [log, admitted]

/-! ## The file sink -/

/-- What `setLogFile` does when the stream cannot be opened. -/
theorem setLogFile_of_open_failed (H : Host FS) (lg : Logger) (fs : FS) (file_path : String)
    (append : Bool) (hopen : H.ofstream_open fs file_path append = none) :
    setLogFile H lg fs file_path append = (false, { lg with file_output_ := none }, fs) := by
  simp [setLogFile, hopen]

/-- What `setLogFile` does when the stream is opened. -/
theorem setLogFile_of_opened (H : Host FS) (lg : Logger) (fs fs1 : FS) (file_path : String)
    (append : Bool) (hopen : H.ofstream_open fs file_path append = some fs1) :
    setLogFile H lg fs file_path append =
      (true, { lg with file_output_ := some ⟨file_path, true⟩, file_path_ := file_path }, fs1) := by
  simp [setLogFile, hopen]

/-- The boolean `setLogFile` returns tells whether the stream was opened. -/
theorem setLogFile_fst (H : Host FS) (lg : Logger) (fs : FS) (file_path : String)
    (append : Bool) :
    (setLogFile H lg fs file_path append).1 = (H.ofstream_open fs file_path append).isSome := by
  cases hopen : H.ofstream_open fs file_path append <;> simp [setLogFile, hopen]

/-- A call of `log` on a logger without file stream leaves the file system as it
was. -/
theorem log_fs_of_no_stream (H : Host FS) (lg : Logger) (w : World FS) (now : TimePoint)
    (level : LogLevel) (tag : Option String) (file : Option String) (line : Int)
    (function : Option String) (formatted : Option String) (hnone : lg.file_output_ = none) :
    (log H lg w now level tag file line function formatted).2.fs = w.fs := by
  unfold log
  split
  · rfl
  · cases formatted with
    | none => rfl
    | some message => cases hc : lg.console_output_ <;> simp [dispatch, hnone, hc]

/-- Evaluation for claim C5, which the code does not meet.  On the fresh logger,
`setLogFile("a.log")` succeeds and opens the stream; `setLogFile("missing/b.log")`
then fails, its directory being absent.  Afterwards no file stream is open, yet
`getLogFilePath` still returns `"a.log"`, not the empty string. -/
theorem getLogFilePath_stale_after_failed_open :
    openedSample.1 = true ∧
    openedSample.2.1.file_output_ = some ⟨"a.log", true⟩ ∧
    (setLogFile simHost openedSample.2.1 openedSample.2.2 "missing/b.log" true).1 = false ∧
    (setLogFile simHost openedSample.2.1 openedSample.2.2 "missing/b.log"
      true).2.1.file_output_ = none ∧
    getLogFilePath (setLogFile simHost openedSample.2.1 openedSample.2.2 "missing/b.log"
      true).2.1 = "a.log" := by
  refine ⟨?_, ?_, ?_, ?_, ?_⟩ <;> rfl

/-- Counterexample to claim C6 as stated.  With the stream on `"a.log"` open, a
`setLogFile` on a path in a missing directory returns `false`, and the file handle
is not what it was before the call: it was the open stream, it is absent now. -/
theorem failure_keeps_sink_fields_counterexample :
    (setLogFile simHost openedSample.2.1 openedSample.2.2 "nodir/x.log" false).1 = false ∧
    (setLogFile simHost openedSample.2.1 openedSample.2.2 "nodir/x.log"
      false).2.1.file_output_ ≠ openedSample.2.1.file_output_ := by
  refine ⟨by rfl, by decide⟩

/-- The two ways `setLogDirectory` returns a value: the directory step fails and
the logger is returned as it was, or the step succeeds and the call ends in
`setLogFile` on the joined path. -/
theorem setLogDirectory_eq_ok (H : Host FS) (lg : Logger) (fs : FS) (now : TimePoint)
    (dir_path : String) ( file_prefix : String) (append daily_rotation : Bool)
    (r : Bool × Logger × FS)
    (h : setLogDirectory H lg fs now dir_path file_prefix append daily_rotation = .ok r) :
    (∃ fs1, ensureDirectory H fs dir_path = some (false, fs1) ∧ r = (false, lg, fs1)) ∨
    (∃ fs1 filename full_path, ensureDirectory H fs dir_path = some (true, fs1) ∧
      logFileName now file_prefix daily_rotation = some filename ∧
      fullPath dir_path filename = some full_path ∧
      r = setLogFile H lg fs1 full_path append) := by
  unfold setLogDirectory at h
  cases he : ensureDirectory H fs dir_path with
  | none => simp [he] at h
  | some e =>
    obtain ⟨b, fs1⟩ := e
    cases b with
    | false =>
      simp only [he, Except.ok.injEq] at h
      exact Or.inl ⟨fs1, rfl, h.symm⟩
    | true =>
      simp only [he] at h
      cases hn : logFileName now file_prefix daily_rotation with
      | none => simp [hn] at h
      | some filename =>
        simp only [hn] at h
        cases hp : fullPath dir_path filename with
        | none => simp [hp] at h
        | some full_path =>
          simp only [hp, Except.ok.injEq] at h
          exact Or.inr ⟨fs1, filename, full_path, rfl, rfl, hp, h.symm⟩

/-- The part of C5 the code does meet: in every reachable state, an open file
stream is open on the very path `getLogFilePath` returns. -/
theorem getLogFilePath_of_open (H : Host FS) (lg : Logger) (hreach : SinkReachable H lg)
    (out : Ofstream) (hout : lg.file_output_ = some out) :
    out.is_open = true ∧ getLogFilePath lg = out.path := by
  have hfile : ∀ (lg0 : Logger) (fs : FS) (p : String) (a : Bool) (o : Ofstream),
      (setLogFile H lg0 fs p a).2.1.file_output_ = some o →
      o.is_open = true ∧ getLogFilePath (setLogFile H lg0 fs p a).2.1 = o.path := by
    intro lg0 fs p a o ho
    cases hopen : H.ofstream_open fs p a with
    | none => simp [setLogFile, hopen] at ho
    | some fs1 =>
      simp only [setLogFile, hopen, Option.some.injEq] at ho
      subst ho
      simp [setLogFile, hopen, getLogFilePath]
  induction hreach generalizing out with
  | init => simp [Logger.init, configureTag] at hout
  | setLogFile lg0 fs p a _ _ => exact hfile lg0 fs p a out hout
  | setLogDirectory lg0 fs now d pre a rot r _ hr ih =>
    rcases setLogDirectory_eq_ok H lg0 fs now d pre a rot r hr with
      ⟨fs1, _, hr1⟩ | ⟨fs1, filename, full_path, _, _, _, hr1⟩
    · subst hr1
      exact ih out hout
    · subst hr1
      exact hfile lg0 fs1 full_path a out hout
  | closeLogFile lg0 _ _ => simp [closeLogFile] at hout

/-- Claim C6, amended.  When `setLogFile` returns `false`, no file stream is open
afterwards (an open one has been closed, an absent one stays absent).  When
`setLogDirectory` returns `false`, either the directory step failed and the logger,
so its file handle and its stored path, is exactly what it was before the call, or
the directory step succeeded, the open failed, and no file stream is open
afterwards. -/
theorem failure_sink_fields (H : Host FS) (lg lg' : Logger) (fs fs' : FS) (now : TimePoint)
    (file_path dir_path : String) ( file_prefix : String) (append daily_rotation : Bool) :
    ((setLogFile H lg fs file_path append).1 = false →
      (setLogFile H lg fs file_path append).2.1.file_output_ = none) ∧
    (setLogDirectory H lg fs now dir_path file_prefix append daily_rotation =
        .ok (false, lg', fs') →
      (ensureDirectory H fs dir_path = some (false, fs') ∧ lg' = lg) ∨
      ((∃ fs1, ensureDirectory H fs dir_path = some (true, fs1)) ∧
        lg'.file_output_ = none)) := by
  have hfile : ∀ (fs0 : FS) (p : String), (setLogFile H lg fs0 p append).1 = false →
      (setLogFile H lg fs0 p append).2.1.file_output_ = none := by
    intro fs0 p hfail
    cases hopen : H.ofstream_open fs0 p append with
    | none => simp [setLogFile, hopen]
    | some fs1 => simp [setLogFile, hopen] at hfail
  refine ⟨hfile fs file_path, fun hdir => ?_⟩
  rcases setLogDirectory_eq_ok H lg fs now dir_path file_prefix append daily_rotation _ hdir with
    ⟨fs1, he, hr⟩ | ⟨fs1, filename, full_path, he, _, _, hr⟩
  · simp only [Prod.mk.injEq, true_and] at hr
    exact Or.inl ⟨by rw [he, hr.2], hr.1⟩
  · refine Or.inr ⟨⟨fs1, he⟩, ?_⟩
    have h1 : (setLogFile H lg fs1 full_path append).1 = false := by rw [← hr]
    have h2 := hfile fs1 full_path h1
    rw [← hr] at h2
    exact h2

/-- Witness for the amended C6: `setLogFile` on a path in a missing directory, and
`setLogDirectory` on `"./x"` where `"./x/app.log"` is a directory and cannot be
opened as a file. -/
theorem failure_sink_fields_witness :
    ((setLogFile simHost Logger.init simFS0 "nodir/x.log" true).1 = false ∧
      (setLogFile simHost Logger.init simFS0 "nodir/x.log" true).2.1.file_output_ = none) ∧
    (setLogDirectory simHost Logger.init simFSBlocked sampleTime "./x" "app" true false =
      .ok (false, { Logger.init with file_output_ := none }, simFSBlocked) ∧
      ((ensureDirectory simHost simFSBlocked "./x" = some (false, simFSBlocked) ∧
        ({ Logger.init with file_output_ := none } : Logger) = Logger.init) ∨
      ((∃ fs1, ensureDirectory simHost simFSBlocked "./x" = some (true, fs1)) ∧
        ({ Logger.init with file_output_ := none } : Logger).file_output_ = none))) :=
  ⟨⟨by rfl,
    (failure_sink_fields simHost Logger.init Logger.init simFS0 simFS0 sampleTime "nodir/x.log"
      "" "" true false).1 (by rfl)⟩,
   by rfl,
    (failure_sink_fields simHost Logger.init { Logger.init with file_output_ := none }
      simFSBlocked simFSBlocked sampleTime "" "./x" "app" true false).2 (by rfl)⟩

/-- Claim C7.  When the open fails, `setLogFile` returns `false` (it returns a
value, nothing is raised), leaves the file system as it was, and no file stream is
open afterwards, whatever was open before; every following call of `log` leaves
the file system untouched. -/
theorem setLogFile_failure_closes (H : Host FS) (lg : Logger) (fs : FS) (file_path : String)
    (append : Bool) (hopen : H.ofstream_open fs file_path append = none) :
    (setLogFile H lg fs file_path append).1 = false ∧
    (setLogFile H lg fs file_path append).2.1.file_output_ = none ∧
    (setLogFile H lg fs file_path append).2.2 = fs ∧
    ∀ (w : World FS) (now : TimePoint) (level : LogLevel) (tag file : Option String)
      (line : Int) (function formatted : Option String),
      (log H (setLogFile H lg fs file_path append).2.1 w now level tag file line function
        formatted).2.fs = w.fs := by
  rw [setLogFile_of_open_failed H lg fs file_path append hopen]
  refine ⟨rfl, rfl, rfl, fun w now level tag file line function formatted => ?_⟩
  exact log_fs_of_no_stream H _ w now level tag file line function formatted rfl

/-- Witness for C7: the stream on `"a.log"` is open, the open of a path in a missing
directory fails, and no stream is open afterwards. -/
theorem setLogFile_failure_closes_witness :
    simHost.ofstream_open openedSample.2.2 "nodir/x.log" true = none ∧
    (setLogFile simHost openedSample.2.1 openedSample.2.2 "nodir/x.log"
      true).2.1.file_output_ = none :=
  ⟨by rfl,
    (setLogFile_failure_closes simHost openedSample.2.1 openedSample.2.2 "nodir/x.log" true
      (by rfl)).2.1⟩

/-! ## The path of the log file in a directory -/

theorem digitChar_mod (n : Nat) : Nat.digitChar (n % 10) = digit n := by
  have h : n % 10 < 10 := Nat.mod_lt _ (by decide)
  unfold digit
  generalize n % 10 = m at h
  interval_cases m <;> rfl

theorem toDigitsCore_step (f n : Nat) (ds : List Char) :
    Nat.toDigitsCore 10 (f + 1) n ds =
      if n / 10 = 0 then Nat.digitChar (n % 10) :: ds
      else Nat.toDigitsCore 10 f (n / 10) (Nat.digitChar (n % 10) :: ds) := by
  simp [Nat.toDigitsCore]

/-- A number of four digits is printed as its four digits. -/
theorem toString_four_digits (n : Nat) (h1 : 1000 ≤ n) (h2 : n ≤ 9999) :
    toString n = ⟨[digit (n / 1000), digit (n / 100), digit (n / 10), digit n]⟩ := by
  show (Nat.toDigits 10 n).asString = _
  congr 1
  obtain ⟨k, rfl⟩ : ∃ k, n = k + 4 := ⟨n - 4, by omega⟩
  show Nat.toDigitsCore 10 (k + 4 + 1) (k + 4) [] = _
  rw [toDigitsCore_step, if_neg (by omega), toDigitsCore_step, if_neg (by omega),
    toDigitsCore_step, if_neg (by omega), toDigitsCore_step, if_pos (by omega)]
  simp only [digitChar_mod, Nat.div_div_eq_div_mul]

/-- A number below 100, printed with width 2 and fill `'0'`, is its two digits. -/
theorem setw0_two_digits (n : Nat) (h : n ≤ 99) :
    setw0 2 (toString n) = ⟨[digit (n / 10), digit n]⟩ := by
  interval_cases n <;> rfl

/-- For a date with a four-digit year, `strftime` with `"%Y%m%d"` fills the buffer
with the eight digits of the date. -/
theorem strftime_Ymd_eq (tm : Tm) (hy : tm.tm_year + 1900 ≤ 9999) (hm : tm.tm_mon ≤ 11)
    (hd : tm.tm_mday ≤ 31) :
    strftime_Ymd 16 tm = some (YYYYMMDD (tm.tm_year + 1900) (tm.tm_mon + 1) tm.tm_mday) := by
  unfold strftime_Ymd
  rw [toString_four_digits _ (by omega) hy, setw0_two_digits _ (by omega),
    setw0_two_digits _ (by omega)]
  rfl

/-- The joined path: the separator `'/'` is inserted exactly when the directory
path does not already end with a separator. -/
theorem fullPath_eq (dir_path filename full_path : String)
    (h : fullPath dir_path filename = some full_path) :
    (endsWithSeparator dir_path → full_path = dir_path ++ filename) ∧
    (¬ endsWithSeparator dir_path → full_path = dir_path ++ "/" ++ filename) := by
  unfold fullPath at h
  cases hb : back? dir_path with
  | none => simp [hb] at h
  | some c =>
    simp only [hb, Option.some.injEq] at h
    have hends : endsWithSeparator dir_path ↔ (c = '/' ∨ c = '\\') := by
      constructor
      · rintro ⟨pre, d, hd, rfl⟩
        have : c = d := by
          simpa [back?, String.data_append, String.singleton] using hb.symm
        rw [this]; exact hd
      · intro hc
        refine ⟨⟨dir_path.data.dropLast⟩, c, hc, ?_⟩
        apply String.ext
        simp only [String.data_append, String.singleton]
        have := List.dropLast_append_getLast? c (by simpa [back?] using hb)
        simpa using this.symm
    constructor
    · intro he
      have hc := hends.mp he
      rw [← h, if_neg (by intro hn; rcases hc with hc | hc <;> simp [hc] at hn)]
    · intro he
      have hc : c ≠ '/' ∧ c ≠ '\\' := by
        constructor <;> intro hn <;> exact he (hends.mpr (by simp [hn]))
      rw [← h, if_pos hc]

/-- Claim C8.  When `setLogDirectory` succeeds (which it can only for a non-empty
`dir_path`), the path `getLogFilePath` returns afterwards is `dir_path`, then
`"/"` unless `dir_path` ends with `'/'` or `'\\'`, then the prefix, then, under daily
rotation, `"_"` and the eight digits `YYYYMMDD` of the local date of the call
(four-digit year), then `".log"`. -/
theorem setLogDirectory_path (H : Host FS) (lg lg' : Logger) (fs fs' : FS) (now : TimePoint)
    (dir_path : String) ( file_prefix : String) (append daily_rotation : Bool)
    (hdate : daily_rotation = true →
      now.tm.tm_year + 1900 ≤ 9999 ∧ now.tm.tm_mon ≤ 11 ∧ now.tm.tm_mday ≤ 31)
    (hok : setLogDirectory H lg fs now dir_path file_prefix append daily_rotation =
      .ok (true, lg', fs')) :
    dir_path ≠ "" ∧
    (endsWithSeparator dir_path →
      getLogFilePath lg' = dir_path ++
        (if daily_rotation then
          file_prefix ++ "_" ++
            YYYYMMDD (now.tm.tm_year + 1900) (now.tm.tm_mon + 1) now.tm.tm_mday ++ ".log"
        else file_prefix ++ ".log")) ∧
    (¬ endsWithSeparator dir_path →
      getLogFilePath lg' = dir_path ++ "/" ++
        (if daily_rotation then
          file_prefix ++ "_" ++
            YYYYMMDD (now.tm.tm_year + 1900) (now.tm.tm_mon + 1) now.tm.tm_mday ++ ".log"
        else file_prefix ++ ".log")) := by
  rcases setLogDirectory_eq_ok H lg fs now dir_path file_prefix append daily_rotation _ hok with
    ⟨fs1, _, hr⟩ | ⟨fs1, filename, full_path, _, hname, hpath, hr⟩
  · simp at hr
  · have hne : dir_path ≠ "" := by
      rintro rfl
      simp [fullPath, back?] at hpath
    have hfile : getLogFilePath lg' = full_path := by
      cases hopen : H.ofstream_open fs1 full_path append with
      | none => simp [setLogFile, hopen] at hr
      | some fs2 =>
        simp only [setLogFile, hopen, Prod.mk.injEq, true_and] at hr
        rw [hr.1]; rfl
    have hfn : filename =
        (if daily_rotation then
          file_prefix ++ "_" ++
            YYYYMMDD (now.tm.tm_year + 1900) (now.tm.tm_mon + 1) now.tm.tm_mday ++ ".log"
        else file_prefix ++ ".log") := by
      unfold logFileName at hname
      cases hrot : daily_rotation with
      | false => simpa [hrot] using hname.symm
      | true =>
        obtain ⟨hy, hm, hd⟩ := hdate hrot
        simpa [hrot, strftime_Ymd_eq now.tm hy hm hd] using hname.symm
    rw [hfile, ← hfn]
    exact ⟨hne, fullPath_eq dir_path filename full_path hpath⟩

/-- Witness for C8, the example of the specification: `("./x", "app")` with daily
rotation on 2024-01-02. -/
theorem setLogDirectory_path_witness :
    (setLogDirectory simHost Logger.init simFS0 sampleTime "./x" "app" true true =
      .ok (setLogFile simHost Logger.init
        (fun q => if q = "./x" then some Node.dir else simFS0 q) "./x/app_20240102.log" true)) ∧
    ¬ endsWithSeparator "./x" ∧
    getLogFilePath (setLogFile simHost Logger.init
        (fun q => if q = "./x" then some Node.dir else simFS0 q)
        "./x/app_20240102.log" true).2.1 =
      "./x" ++ "/" ++ (if true then "app" ++ "_" ++ YYYYMMDD (124 + 1900) (0 + 1) 2 ++ ".log"
        else "app" ++ ".log") :=
  have hsep : ¬ endsWithSeparator "./x" := by
    rintro ⟨pre, c, hc, h⟩
    have h2 := congrArg (fun s => s.data.getLast?) h
    simp [String.data_append, String.singleton] at h2
    rcases hc with hc | hc <;> rw [hc] at h2 <;> exact absurd h2 (by decide)
  ⟨by rfl, hsep,
    (setLogDirectory_path simHost Logger.init _ simFS0 _ sampleTime "./x" "app" true true
      (fun _ => by decide) (by rfl)).2.2 hsep⟩

/-- The example of the specification, evaluated: on 2024-01-02 the call with
`("./x", "app")` targets `"./x/app_20240102.log"` under daily rotation and
`"./x/app.log"` without. -/
theorem setLogDirectory_example :
    (setLogDirectory simHost Logger.init simFS0 sampleTime "./x" "app" true true).map
        (fun r => (r.1, getLogFilePath r.2.1)) = .ok (true, "./x/app_20240102.log") ∧
    (setLogDirectory simHost Logger.init simFS0 sampleTime "./x" "app" true false).map
        (fun r => (r.1, getLogFilePath r.2.1)) = .ok (true, "./x/app.log") :=
  ⟨by rfl, by rfl⟩

/-- Claim C9.  After `closeLogFile` no file stream is open and the stored path is
empty, whatever the state was before, and a second `closeLogFile` changes nothing
more; every call of `log` after `setLogFile` followed by `closeLogFile` leaves the
file system, hence the content of the file that was open, exactly as it was. -/
theorem closeLogFile_releases (H : Host FS) (lg : Logger) (fs : FS) (file_path : String)
    (append : Bool) (w : World FS) (now : TimePoint) (level : LogLevel)
    (tag file : Option String) (line : Int) (function formatted : Option String) :
    (closeLogFile lg).file_output_ = none ∧
    (closeLogFile lg).file_path_ = "" ∧
    getLogFilePath (closeLogFile lg) = "" ∧
    closeLogFile (closeLogFile lg) = closeLogFile lg ∧
    (log H (closeLogFile lg) w now level tag file line function formatted).2.fs = w.fs ∧
    (log H (closeLogFile (setLogFile H lg fs file_path append).2.1) w now level tag file line
      function formatted).2.fs = w.fs :=
  ⟨rfl, rfl, rfl, rfl,
    log_fs_of_no_stream H _ w now level tag file line function formatted rfl,
    log_fs_of_no_stream H _ w now level tag file line function formatted rfl⟩

/-! ## The location suffix -/

theorem findLastIdx_eq_none (p : Char → Bool) (l : List Char) (h : ∀ c ∈ l, p c = false) :
    findLastIdx p l = none := by
  induction l with
  | nil => rfl
  | cons c cs ih =>
    have hc : p c = false := h c (List.mem_cons_self _ _)
    have hcs : ∀ d ∈ cs, p d = false := fun d hd => h d (List.mem_cons_of_mem _ hd)
    simp [findLastIdx, ih hcs, hc]

theorem findLastIdx_append (p : Char → Bool) (pre rest : List Char) (c : Char)
    (hc : p c = true) (hrest : ∀ d ∈ rest, p d = false) :
    findLastIdx p (pre ++ c :: rest) = some pre.length := by
  induction pre with
  | nil => simp [findLastIdx, findLastIdx_eq_none p rest hrest, hc]
  | cons a as ih => simp [findLastIdx, ih]

/-- In the mode `FILENAME_ONLY`, a path without separator is shown as it is. -/
theorem getLocationInfo_filename_plain (lg : Logger) (p fn : String) (n : Int)
    (hmode : lg.location_mode_ = .FILENAME_ONLY)
    (hp : ∀ c ∈ p.data, ¬ isSeparator c) :
    getLocationInfo lg (some p) (some fn) n = "[" ++ p ++ ":" ++ toString n ++ "-" ++ fn ++ "]" := by
  have hnone : find_last_of p ['/', '\\'] = none := by
    apply findLastIdx_eq_none
    intro c hc
    have := hp c hc
    simp only [isSeparator, not_or] at this
    simp [this.1, this.2]
  simp [getLocationInfo, hmode, hnone]

/-- In the mode `FILENAME_ONLY`, a path is shown from behind its last separator. -/
theorem getLocationInfo_filename_strip (lg : Logger) (fn : String) (n : Int)
    (pre rest : List Char) (sep : Char)
    (hmode : lg.location_mode_ = .FILENAME_ONLY)
    (hsep : isSeparator sep) (hrest : ∀ c ∈ rest, ¬ isSeparator c) :
    getLocationInfo lg (some ⟨pre ++ sep :: rest⟩) (some fn) n =
      "[" ++ ⟨rest⟩ ++ ":" ++ toString n ++ "-" ++ fn ++ "]" := by
  have hsome : find_last_of ⟨pre ++ sep :: rest⟩ ['/', '\\'] = some pre.length := by
    apply findLastIdx_append
    · rcases hsep with h | h <;> simp [h]
    · intro c hc
      have := hrest c hc
      simp only [isSeparator, not_or] at this
      simp [this.1, this.2]
  have hdrop : substrFrom ⟨pre ++ sep :: rest⟩ (pre.length + 1) = ⟨rest⟩ := by
    simp [substrFrom]
  simp [getLocationInfo, hmode, hsome, hdrop]

/-- Claim C10.  For a file path `p`, a line `n` and a function name `fn`, the
location suffix of the line is `"[" ++ shown ++ ":" ++ decimal n ++ "-" ++ fn ++ "]"`,
where `shown` is `p` in the mode `FULL_PATH`; in the mode `FILENAME_ONLY` it is `p`
when `p` holds no separator, and the part of `p` behind its last separator
otherwise; in the mode `NONE` the suffix is empty, and the line is the one built
without file and function. -/
theorem location_suffix (lg : Logger) (p fn : String) (n : Int) :
    (lg.location_mode_ = .FULL_PATH →
      location_info lg (some p) n (some fn) =
        "[" ++ p ++ ":" ++ toString n ++ "-" ++ fn ++ "]") ∧
    (lg.location_mode_ = .FILENAME_ONLY →
      ((∀ c ∈ p.data, ¬ isSeparator c) →
        location_info lg (some p) n (some fn) =
          "[" ++ p ++ ":" ++ toString n ++ "-" ++ fn ++ "]") ∧
      (∀ (pre rest : List Char) (sep : Char), p = ⟨pre ++ sep :: rest⟩ → isSeparator sep →
        (∀ c ∈ rest, ¬ isSeparator c) →
        location_info lg (some p) n (some fn) =
          "[" ++ ⟨rest⟩ ++ ":" ++ toString n ++ "-" ++ fn ++ "]")) ∧
    (lg.location_mode_ = .NONE →
      location_info lg (some p) n (some fn) = "" ∧
      ∀ (now : TimePoint) (level : LogLevel) (tag : Option String) (message : String),
        log_entry lg now level tag (some p) n (some fn) message =
          log_entry lg now level tag none n none message) := by
  refine ⟨fun hmode => ?_, fun hmode => ⟨fun hp => ?_, fun pre rest sep hpeq hsep hrest => ?_⟩,
    fun hmode => ?_⟩
  · simp [location_info, getLocationInfo, hmode]
  · simp only [location_info, hmode]
    simpa using getLocationInfo_filename_plain lg p fn n hmode hp
  · subst hpeq
    simp only [location_info, hmode]
    simpa using getLocationInfo_filename_strip lg fn n pre rest sep hmode hsep hrest
  · have h0 : ∀ (file function : Option String), location_info lg file n function = "" := by
      intro file function
      simp [location_info, hmode]
    refine ⟨h0 _ _, fun now level tag message => ?_⟩
    simp only [log_entry, h0]

/-- Witness for C10, the example of the specification: `/a/b/c.txt`, line 10,
function `f` in the modes `FILENAME_ONLY` and `FULL_PATH`. -/
theorem location_suffix_witness :
    (Logger.init.location_mode_ = .FILENAME_ONLY ∧
      location_info Logger.init (some "/a/b/c.txt") 10 (some "f") = "[c.txt:10-f]") ∧
    ((setLocationMode Logger.init .FULL_PATH "").location_mode_ = .FULL_PATH ∧
      location_info (setLocationMode Logger.init .FULL_PATH "") (some "/a/b/c.txt") 10
        (some "f") = "[/a/b/c.txt:10-f]") :=
  ⟨⟨rfl,
    ((location_suffix Logger.init "/a/b/c.txt" "f" 10).2.1 rfl).2 "/a/b".data "c.txt".data '/'
      rfl (Or.inl rfl)
      (by intro c hc; simp at hc; rcases hc with h | h | h | h | h <;> rw [h] <;>
        simp [isSeparator])⟩,
   ⟨rfl, (location_suffix (setLocationMode Logger.init .FULL_PATH "") "/a/b/c.txt" "f" 10).1 rfl⟩⟩

/-! ## Relative paths in the location suffix -/

/-- A string ends with a separator exactly when `back()` is one. -/
theorem endsWithSeparator_iff_back (s : String) :
    endsWithSeparator s ↔ (back? s = some '/' ∨ back? s = some '\\') := by
  constructor
  · rintro ⟨pre, d, hd, rfl⟩
    have hb : back? (pre ++ String.singleton d) = some d := by
      simp [back?, String.data_append, String.singleton]
    rcases hd with hd | hd
    · subst hd; exact Or.inl hb
    · subst hd; exact Or.inr hb
  · intro h
    have key : ∀ c, isSeparator c → back? s = some c → endsWithSeparator s := by
      intro c hc hb
      refine ⟨⟨s.data.dropLast⟩, c, hc, ?_⟩
      apply String.ext
      simp only [String.data_append, String.singleton]
      have := List.dropLast_append_getLast? c (by simpa [back?] using hb)
      simpa using this.symm
    rcases h with h | h
    · exact key _ (Or.inl rfl) h
    · exact key _ (Or.inr rfl) h

/-- The test `find(needle) == 0` holds exactly when the text starts with the needle. -/
theorem findSub_eq_zero (needle hay : List Char) :
    findSub needle hay = some 0 ↔ needle <+: hay := by
  cases hay with
  | nil =>
    cases needle with
    | nil => simp [findSub]
    | cons a as => simp [findSub]
  | cons c cs =>
    unfold findSub
    by_cases h : needle.isPrefixOf (c :: cs) = true
    · simp [h, List.isPrefixOf_iff_prefix.mp h]
    · have h2 : ¬ needle <+: c :: cs := fun hp => h (List.isPrefixOf_iff_prefix.mpr hp)
      simp [h, h2]

theorem find_eq_zero (p b : String) : find p b = some 0 ↔ startsWith p b := by
  unfold find startsWith
  rw [findSub_eq_zero]
  constructor
  · rintro ⟨r, hr⟩
    exact ⟨⟨r⟩, String.ext (by simp [String.data_append, hr])⟩
  · rintro ⟨rest, rfl⟩
    exact ⟨rest.data, by simp [String.data_append]⟩

theorem empty_iff (s : String) : empty s = true ↔ s = "" := by
  constructor
  · intro h
    apply String.ext
    simpa [empty] using h
  · rintro rfl
    rfl

/-- In the mode `RELATIVE_PATH` with a non-empty base path, `getLocationInfo` tests
whether the file path starts with the normalised base path. -/
theorem getLocationInfo_relative (lg : Logger) (p fn b' : String) (n : Int)
    (hmode : lg.location_mode_ = .RELATIVE_PATH) (hbase : lg.base_path_ ≠ "")
    (hb' : (endsWithSeparator lg.base_path_ ∧ b' = lg.base_path_) ∨
      (¬ endsWithSeparator lg.base_path_ ∧ b' = lg.base_path_ ++ "/")) :
    getLocationInfo lg (some p) (some fn) n =
      "[" ++ (if find p b' = some 0 then substrFrom p b'.length else p) ++ ":" ++ toString n ++
        "-" ++ fn ++ "]" := by
  have hne : ¬ empty lg.base_path_ = true := fun h => hbase ((empty_iff _).mp h)
  have hnorm : (if back? lg.base_path_ ≠ some '/' ∧ back? lg.base_path_ ≠ some '\\' then
      lg.base_path_ ++ "/" else lg.base_path_) = b' := by
    rcases hb' with ⟨he, rfl⟩ | ⟨he, rfl⟩
    · rw [endsWithSeparator_iff_back] at he
      rw [if_neg]
      rintro ⟨h1, h2⟩
      rcases he with he | he
      · exact h1 he
      · exact h2 he
    · rw [endsWithSeparator_iff_back, not_or] at he
      rw [if_pos he]
  simp only [getLocationInfo, hmode]
  rw [if_neg (by decide), if_pos ⟨trivial, hne⟩]
  simp only [hnorm]

/-- Claim C11.  In the mode `RELATIVE_PATH`, let `b'` be the base path with `"/"`
appended unless it already ends with `'/'` or `'\\'`.  When the base path is not
empty and the file path `p` is `b'` followed by `rest`, the location suffix shows
`rest`; when the base path is empty, or `p` does not start with `b'`, it shows `p`
unchanged. -/
theorem relative_path_suffix (lg : Logger) (p fn b' : String) (n : Int)
    (hmode : lg.location_mode_ = .RELATIVE_PATH)
    (hb' : (endsWithSeparator lg.base_path_ ∧ b' = lg.base_path_) ∨
      (¬ endsWithSeparator lg.base_path_ ∧ b' = lg.base_path_ ++ "/")) :
    (lg.base_path_ ≠ "" → ∀ rest : String, p = b' ++ rest →
      location_info lg (some p) n (some fn) =
        "[" ++ rest ++ ":" ++ toString n ++ "-" ++ fn ++ "]") ∧
    ((lg.base_path_ = "" ∨ ¬ startsWith p b') →
      location_info lg (some p) n (some fn) =
        "[" ++ p ++ ":" ++ toString n ++ "-" ++ fn ++ "]") := by
  have hloc : location_info lg (some p) n (some fn) = getLocationInfo lg (some p) (some fn) n := by
    simp [location_info, hmode]
  rw [hloc]
  constructor
  · intro hbase rest hp
    rw [getLocationInfo_relative lg p fn b' n hmode hbase hb',
      if_pos ((find_eq_zero p b').mpr ⟨rest, hp⟩)]
    have hdrop : substrFrom p b'.length = rest := by
      subst hp
      apply String.ext
      show List.drop b'.data.length (b' ++ rest).data = rest.data
      rw [String.data_append, List.drop_left]
    rw [hdrop]
  · intro h
    by_cases hbase : lg.base_path_ = ""
    · have he : empty lg.base_path_ = true := (empty_iff _).mpr hbase
      simp [getLocationInfo, hmode, he]
    · have hns : ¬ startsWith p b' := by
        rcases h with h | h
        · exact absurd h hbase
        · exact h
      rw [getLocationInfo_relative lg p fn b' n hmode hbase hb',
        if_neg (fun hf => hns ((find_eq_zero p b').mp hf))]

/-- Witness for C11: base path `"/home/u/proj"`, file `"/home/u/proj/src/a.cpp"`. -/
theorem relative_path_suffix_witness :
    ((setLocationMode Logger.init .RELATIVE_PATH "/home/u/proj").location_mode_ =
        .RELATIVE_PATH ∧
      ¬ endsWithSeparator (setLocationMode Logger.init .RELATIVE_PATH "/home/u/proj").base_path_ ∧
      (setLocationMode Logger.init .RELATIVE_PATH "/home/u/proj").base_path_ ≠ "" ∧
      "/home/u/proj/src/a.cpp" = "/home/u/proj" ++ "/" ++ "src/a.cpp") ∧
    location_info (setLocationMode Logger.init .RELATIVE_PATH "/home/u/proj")
        (some "/home/u/proj/src/a.cpp") 7 (some "main") =
      "[" ++ "src/a.cpp" ++ ":" ++ toString (7 : Int) ++ "-" ++ "main" ++ "]" :=
  have hsep : ¬ endsWithSeparator
      (setLocationMode Logger.init .RELATIVE_PATH "/home/u/proj").base_path_ := by
    rw [endsWithSeparator_iff_back]
    decide
  ⟨⟨rfl, hsep, by decide, by decide⟩,
    (relative_path_suffix (setLocationMode Logger.init .RELATIVE_PATH "/home/u/proj")
      "/home/u/proj/src/a.cpp" "main" ("/home/u/proj" ++ "/") 7 rfl
      (Or.inr ⟨hsep, rfl⟩)).1 (by decide) "src/a.cpp" (by decide)⟩

/-! ## Strings without escape character -/

theorem hasNoEscape_append (a b : String) :
    hasNoEscape (a ++ b) ↔ hasNoEscape a ∧ hasNoEscape b := by
  simp only [hasNoEscape, String.data_append, List.mem_append]
  constructor
  · intro h
    exact ⟨fun c hc => h c (Or.inl hc), fun c hc => h c (Or.inr hc)⟩
  · rintro ⟨ha, hb⟩ c (hc | hc)
    · exact ha c hc
    · exact hb c hc

theorem hasNoEscape_mk (l : List Char) : hasNoEscape ⟨l⟩ ↔ ∀ c ∈ l, c ≠ esc := Iff.rfl

theorem digit_ne_esc (n : Nat) : digit n ≠ esc := by
  have h : n % 10 < 10 := Nat.mod_lt _ (by decide)
  unfold digit
  generalize n % 10 = m at h
  interval_cases m <;> decide

theorem toDigitsCore_ne_esc (f : Nat) : ∀ (n : Nat) (ds : List Char),
    (∀ c ∈ ds, c ≠ esc) → ∀ c ∈ Nat.toDigitsCore 10 f n ds, c ≠ esc := by
  induction f with
  | zero => intro n ds hds c hc; exact hds c (by simpa [Nat.toDigitsCore] using hc)
  | succ f ih =>
    intro n ds hds c hc
    rw [toDigitsCore_step] at hc
    have hcons : ∀ d ∈ Nat.digitChar (n % 10) :: ds, d ≠ esc := by
      intro d hd
      rcases List.mem_cons.mp hd with rfl | hd
      · rw [digitChar_mod]; exact digit_ne_esc n
      · exact hds d hd
    split at hc
    · exact hcons c hc
    · exact ih (n / 10) _ hcons c hc

/-- The decimal text of a natural number holds no escape character. -/
theorem hasNoEscape_toString_nat (n : Nat) : hasNoEscape (toString n) := by
  show ∀ c ∈ (Nat.toDigits 10 n).asString.data, c ≠ esc
  exact toDigitsCore_ne_esc (n + 1) n [] (by simp)

/-- The decimal text of an integer holds no escape character. -/
theorem hasNoEscape_toString_int (i : Int) : hasNoEscape (toString i) := by
  cases i with
  | ofNat m => exact hasNoEscape_toString_nat m
  | negSucc m =>
    show hasNoEscape ("-" ++ toString (m + 1))
    rw [hasNoEscape_append]
    exact ⟨by intro c hc; simp at hc; rw [hc]; decide, hasNoEscape_toString_nat _⟩

theorem hasNoEscape_setw0 (w : Nat) (s : String) (h : hasNoEscape s) :
    hasNoEscape (setw0 w s) := by
  intro c hc
  simp only [setw0, List.mem_append, List.mem_replicate] at hc
  rcases hc with ⟨_, rfl⟩ | hc
  · decide
  · exact h c hc

theorem hasNoEscape_substrFrom (s : String) (k : Nat) (h : hasNoEscape s) :
    hasNoEscape (substrFrom s k) :=
  fun c hc => h c (List.mem_of_mem_drop hc)

/-- A string literal without escape character, checked character by character. -/
theorem hasNoEscape_of_all (s : String) (h : s.data.all (fun c => c != esc) = true) :
    hasNoEscape s := by
  intro c hc
  have := List.all_eq_true.mp h c hc
  simpa using this

theorem hasNoEscape_put_time (tm : Tm) : hasNoEscape (put_time tm) := by
  unfold put_time
  simp only [hasNoEscape_append]
  refine ⟨⟨⟨⟨⟨⟨⟨⟨⟨⟨?_, ?_⟩, ?_⟩, ?_⟩, ?_⟩, ?_⟩, ?_⟩, ?_⟩, ?_⟩, ?_⟩, ?_⟩ <;>
    first
    | exact hasNoEscape_toString_nat _
    | exact hasNoEscape_setw0 _ _ (hasNoEscape_toString_nat _)
    | exact hasNoEscape_of_all _ (by decide)

/-- The timestamp holds no escape character. -/
theorem hasNoEscape_timestamp (lg : Logger) (now : TimePoint) :
    hasNoEscape (getHighPrecisionTimestamp lg now) := by
  unfold getHighPrecisionTimestamp
  cases lg.timestamp_precision_ <;> simp only [hasNoEscape_append] <;>
    refine ⟨?_, hasNoEscape_of_all _ (by decide)⟩
  · exact ⟨hasNoEscape_of_all _ (by decide), hasNoEscape_put_time _⟩
  · exact ⟨⟨⟨hasNoEscape_of_all _ (by decide), hasNoEscape_put_time _⟩,
      hasNoEscape_of_all _ (by decide)⟩,
      hasNoEscape_setw0 _ _ (hasNoEscape_toString_int _)⟩
  · exact ⟨⟨⟨hasNoEscape_of_all _ (by decide), hasNoEscape_put_time _⟩,
      hasNoEscape_of_all _ (by decide)⟩,
      hasNoEscape_setw0 _ _ (hasNoEscape_toString_int _)⟩

theorem hasNoEscape_time_str (lg : Logger) (now : TimePoint) :
    hasNoEscape (time_str lg now) := by
  unfold time_str
  split
  · exact hasNoEscape_timestamp lg now
  · exact hasNoEscape_of_all _ (by decide)

/-- The location suffix holds no escape character when the file path and the
function name hold none. -/
theorem hasNoEscape_location_info (lg : Logger) (file function : Option String) (line : Int)
    (hfile : ∀ f, file = some f → hasNoEscape f)
    (hfn : ∀ f, function = some f → hasNoEscape f) :
    hasNoEscape (location_info lg file line function) := by
  have hempty : hasNoEscape "" := hasNoEscape_of_all _ (by decide)
  unfold location_info
  split
  · cases file with
    | none => exact hempty
    | some p =>
      cases function with
      | none => exact hempty
      | some fn =>
        have hp := hfile p rfl
        have hf := hfn fn rfl
        simp only [getLocationInfo, hasNoEscape_append]
        refine ⟨⟨⟨⟨⟨⟨hasNoEscape_of_all _ (by decide), ?_⟩, hasNoEscape_of_all _ (by decide)⟩,
          hasNoEscape_toString_int _⟩, hasNoEscape_of_all _ (by decide)⟩, hf⟩,
          hasNoEscape_of_all _ (by decide)⟩
        repeat' split
        all_goals first
          | exact hasNoEscape_substrFrom _ _ hp
          | exact hp
  · exact hempty

/-! ## The rendered line -/

theorem levelToString_eq_levelName (level : LogLevel) (h : level ≠ .OFF) :
    levelToString level = levelName level := by
  cases level <;> first | rfl | exact absurd rfl h

theorem levelColor_style_eq_levelCode (level : LogLevel) (h : level ≠ .OFF) :
    getLevelColor level ++ getLevelStyle level = levelCode level := by
  cases level <;> first | rfl | exact absurd rfl h

theorem ne_off_of_admitted (lg : Logger) (level : LogLevel) (tag : Option String)
    (h : admitted lg level tag = true) : level ≠ .OFF := by
  rintro rfl
  simp [admitted] at h

theorem tagConfig_code (lg : Logger) (t : String) :
    (getTagConfig lg t).style ++ (getTagConfig lg t).color = tagCode lg (some t) := by
  unfold getTagConfig tagCode
  cases h : lg.tag_configs_ t <;> simp [h]

/-- The entry built by `Logger::log`, in each colour mode, as the line of the
specification with the codes of that mode. -/
theorem log_entry_eq (lg : Logger) (now : TimePoint) (level : LogLevel) (tag : Option String)
    (file : Option String) (line : Int) (function : Option String) (message : String)
    (hlevel : level ≠ .OFF) :
    log_entry lg now level tag file line function message =
      (if lg.color_mode_ = .LINE then levelCode level else "") ++
      lineWithCodes lg now level tag file line function message
        (if lg.color_mode_ = .TAG then levelCode level else "")
        (if lg.color_mode_ = .TAG then ansi.reset else "")
        (if lg.color_mode_ = .TAG then tagCode lg tag else "")
        (if lg.color_mode_ = .TAG then ansi.reset else "") ++
      (if lg.color_mode_ = .LINE then ansi.reset else "") := by
  have hname := levelToString_eq_levelName level hlevel
  have hcode := levelColor_style_eq_levelCode level hlevel
  cases hmode : lg.color_mode_ <;> cases tag with
  | none =>
    simp [log_entry, lineWithCodes, tagBracket, time_str, hmode, hname, ← hcode,
      String.append_assoc, -String.reduceAppend]
  | some t =>
    by_cases hshow : lg.show_tags_ = true ∧ t ≠ ""
    · simp [log_entry, lineWithCodes, tagBracket, time_str, hmode, hname, ← hcode,
        ← tagConfig_code, hshow, String.append_assoc, -String.reduceAppend]
    · simp [log_entry, lineWithCodes, tagBracket, time_str, hmode, hname, ← hcode,
        hshow, String.append_assoc, -String.reduceAppend]

/-- The line of the specification does not depend on the colour mode. -/
theorem lineWithCodes_setColorMode (lg : Logger) (mode : ColorMode) (now : TimePoint)
    (level : LogLevel) (tag : Option String) (file : Option String) (line : Int)
    (function : Option String) (message : String) (a b c d : String) :
    lineWithCodes (setColorMode lg mode) now level tag file line function message a b c d =
      lineWithCodes lg now level tag file line function message a b c d := rfl

/-- The line without codes, written out. -/
theorem lineWithCodes_plain (lg : Logger) (now : TimePoint) (level : LogLevel)
    (tag : Option String) (file : Option String) (line : Int) (function : Option String)
    (message : String) :
    lineWithCodes lg now level tag file line function message "" "" "" "" =
      time_str lg now ++ "[" ++ levelName level ++ "]" ++ tagBracket lg tag "" "" ++
        location_info lg file line function ++ " " ++ message := by
  simp [lineWithCodes, String.append_assoc, -String.reduceAppend]

/-- The entry built with the colour mode `OFF` is the line without codes. -/
theorem log_entry_off (lg : Logger) (now : TimePoint) (level : LogLevel) (tag : Option String)
    (file : Option String) (line : Int) (function : Option String) (message : String)
    (hlevel : level ≠ .OFF) (hmode : lg.color_mode_ = .OFF) :
    log_entry lg now level tag file line function message =
      lineWithCodes lg now level tag file line function message "" "" "" "" := by
  rw [log_entry_eq lg now level tag file line function message hlevel]
  simp [hmode]

/-- Claim C12.  With the colour mode `OFF`, an admitted call writes the line
`time_str ++ "[" ++ NAME ++ "]" ++ tagBracket ++ location_info ++ " " ++ message`:
`NAME` is the name of the level in the table `levelName`, the timestamp prefix is
empty when timestamps are off, the tag bracket is `"[" ++ tag ++ "]"` exactly when
tags are shown and the tag is not empty, and empty otherwise.  The line holds no
escape character, hence no ANSI code, when the tag, the file path, the function
name and the message hold none. -/
theorem line_color_off (H : Host FS) (lg : Logger) (w : World FS) (now : TimePoint)
    (level : LogLevel) (tag file : Option String) (line : Int) (function : Option String)
    (message : String) (hmode : lg.color_mode_ = .OFF) (hadm : admitted lg level tag = true) :
    log H lg w now level tag file line function (some message) =
      (lg, dispatch H lg w
        (time_str lg now ++ "[" ++ levelName level ++ "]" ++ tagBracket lg tag "" "" ++
          location_info lg file line function ++ " " ++ message)) ∧
    (lg.show_timestamp_ = false → time_str lg now = "") ∧
    (∀ t, tag = some t → (lg.show_tags_ = true ∧ t ≠ "") →
      tagBracket lg tag "" "" = "[" ++ t ++ "]") ∧
    (∀ t, tag = some t → ¬ (lg.show_tags_ = true ∧ t ≠ "") → tagBracket lg tag "" "" = "") ∧
    (tag = none → tagBracket lg tag "" "" = "") ∧
    ((∀ t, tag = some t → hasNoEscape t) → (∀ f, file = some f → hasNoEscape f) →
      (∀ f, function = some f → hasNoEscape f) → hasNoEscape message →
      hasNoEscape
        (time_str lg now ++ "[" ++ levelName level ++ "]" ++ tagBracket lg tag "" "" ++
          location_info lg file line function ++ " " ++ message)) := by
  have hlevel := ne_off_of_admitted lg level tag hadm
  refine ⟨?_, ?_, ?_, ?_, ?_, ?_⟩
  · rw [log_of_admitted H lg w now level tag file line function message hadm,
      log_entry_off lg now level tag file line function message hlevel hmode,
      lineWithCodes_plain]
  · intro h
    simp [time_str, h]
  · rintro t rfl hshow
    simp [tagBracket, hshow, String.append_assoc, -String.reduceAppend]
  · rintro t rfl hshow
    simp only [tagBracket, if_neg hshow]
  · rintro rfl
    rfl
  · intro htag hfile hfn hmsg
    have hempty : hasNoEscape "" := hasNoEscape_of_all _ (by decide)
    have hbracket : hasNoEscape (tagBracket lg tag "" "") := by
      cases tag with
      | none => exact hempty
      | some t =>
        have ht := htag t rfl
        simp only [tagBracket]
        split
        · simp only [hasNoEscape_append]
          repeat' constructor
          all_goals first | exact ht | exact hasNoEscape_of_all _ (by decide)
        · exact hempty
    have hname : hasNoEscape (levelName level) := by
      cases level <;> exact hasNoEscape_of_all _ (by decide)
    have htime := hasNoEscape_time_str lg now
    have hloc := hasNoEscape_location_info lg file function line hfile hfn
    simp only [hasNoEscape_append]
    repeat' constructor
    all_goals first
      | exact htime | exact hname | exact hbracket | exact hloc | exact hmsg
      | exact hasNoEscape_of_all _ (by decide)

/-- Witness for C12: an `Info` call tagged `UI` on the fresh logger with colours
switched off. -/
theorem line_color_off_witness :
    ((setColorMode Logger.init .OFF).color_mode_ = .OFF ∧
      admitted (setColorMode Logger.init .OFF) .Info (some "UI") = true) ∧
    log simHost (setColorMode Logger.init .OFF) ⟨"", simFS0⟩ sampleTime .Info (some "UI")
        (some "/a/b/c.txt") 10 (some "f") (some "hello") =
      (setColorMode Logger.init .OFF, dispatch simHost (setColorMode Logger.init .OFF)
        ⟨"", simFS0⟩
        (time_str (setColorMode Logger.init .OFF) sampleTime ++ "[" ++ levelName .Info ++ "]" ++
          tagBracket (setColorMode Logger.init .OFF) (some "UI") "" "" ++
          location_info (setColorMode Logger.init .OFF) (some "/a/b/c.txt") 10 (some "f") ++
          " " ++ "hello")) :=
  ⟨⟨rfl, by decide⟩,
    (line_color_off simHost (setColorMode Logger.init .OFF) ⟨"", simFS0⟩ sampleTime .Info
      (some "UI") (some "/a/b/c.txt") 10 (some "f") "hello" rfl (by decide)).1⟩

/-- The witness line of C12, evaluated. -/
theorem line_color_off_example :
    log_entry (setColorMode Logger.init .OFF) sampleTime .Info (some "UI") (some "/a/b/c.txt")
        10 (some "f") "hello" =
      "[2024-01-02 03:04:05.006][INFO][UI][c.txt:10-f] hello" := by
  rfl

/-- Claim C13.  With the colour mode `LINE`, the line of an admitted call is the
colour and the style of the level, then the line the same call gives with the
colour mode `OFF` in the otherwise identical configuration and on the same clock
reading, then the reset code; that inner line carries no code of its own (its
tag bracket is the plain `[tag]`). -/
theorem line_color_line (H : Host FS) (lg : Logger) (w : World FS) (now : TimePoint)
    (level : LogLevel) (tag file : Option String) (line : Int) (function : Option String)
    (message : String) (hmode : lg.color_mode_ = .LINE) (hadm : admitted lg level tag = true) :
    log_entry lg now level tag file line function message =
      getLevelColor level ++ getLevelStyle level ++
        log_entry (setColorMode lg .OFF) now level tag file line function message ++
        ansi.reset ∧
    log H lg w now level tag file line function (some message) =
      (lg, dispatch H lg w
        (getLevelColor level ++ getLevelStyle level ++
          log_entry (setColorMode lg .OFF) now level tag file line function message ++
          ansi.reset)) ∧
    log_entry (setColorMode lg .OFF) now level tag file line function message =
      time_str lg now ++ "[" ++ levelName level ++ "]" ++ tagBracket lg tag "" "" ++
        location_info lg file line function ++ " " ++ message := by
  have hlevel := ne_off_of_admitted lg level tag hadm
  have hoff : log_entry (setColorMode lg .OFF) now level tag file line function message =
      lineWithCodes lg now level tag file line function message "" "" "" "" := by
    rw [log_entry_off (setColorMode lg .OFF) now level tag file line function message hlevel rfl,
      lineWithCodes_setColorMode]
  have hline : log_entry lg now level tag file line function message =
      getLevelColor level ++ getLevelStyle level ++
        log_entry (setColorMode lg .OFF) now level tag file line function message ++
        ansi.reset := by
    rw [hoff, log_entry_eq lg now level tag file line function message hlevel,
      levelColor_style_eq_levelCode level hlevel]
    simp [hmode]
  refine ⟨hline, ?_, ?_⟩
  · rw [log_of_admitted H lg w now level tag file line function message hadm, hline]
  · rw [hoff, lineWithCodes_plain]

/-- Witness for C13: an `Error` call tagged `UI` with whole-line colouring. -/
theorem line_color_line_witness :
    ((setColorMode Logger.init .LINE).color_mode_ = .LINE ∧
      admitted (setColorMode Logger.init .LINE) .Error (some "UI") = true) ∧
    log_entry (setColorMode Logger.init .LINE) sampleTime .Error (some "UI")
        (some "/a/b/c.txt") 10 (some "f") "hello" =
      getLevelColor .Error ++ getLevelStyle .Error ++
        log_entry (setColorMode (setColorMode Logger.init .LINE) .OFF) sampleTime .Error
          (some "UI") (some "/a/b/c.txt") 10 (some "f") "hello" ++ ansi.reset :=
  ⟨⟨rfl, by decide⟩,
    (line_color_line simHost (setColorMode Logger.init .LINE) ⟨"", simFS0⟩ sampleTime .Error
      (some "UI") (some "/a/b/c.txt") 10 (some "f") "hello" rfl (by decide)).1⟩

/-- The witness line of C13, evaluated. -/
theorem line_color_line_example :
    log_entry (setColorMode Logger.init .LINE) sampleTime .Error (some "UI") (some "/a/b/c.txt")
        10 (some "f") "hello" =
      "\x1b[31m\x1b[1m[2024-01-02 03:04:05.006][ERROR][UI][c.txt:10-f] hello\x1b[0m" := by
  rfl

/-- Claim C14.  With the colour mode `TAG`, the line of an admitted call is the line
of the specification with the level bracket between the code of the level (table
`levelCode`: colour, then bold for `Error` and `Fatal`) and the reset code, and the
tag bracket, when shown, between style and colour of the tag's `TagConfig` (cyan
without style when the tag has none) and the reset code.  The timestamp, the
location suffix and the message are as in the line without codes, which is the
line of the colour mode `OFF`. -/
theorem line_color_tag (H : Host FS) (lg : Logger) (w : World FS) (now : TimePoint)
    (level : LogLevel) (tag file : Option String) (line : Int) (function : Option String)
    (message : String) (hmode : lg.color_mode_ = .TAG) (hadm : admitted lg level tag = true) :
    log H lg w now level tag file line function (some message) =
      (lg, dispatch H lg w
        (time_str lg now ++ (levelCode level ++ "[" ++ levelName level ++ "]" ++ ansi.reset) ++
          tagBracket lg tag (tagCode lg tag) ansi.reset ++
          location_info lg file line function ++ " " ++ message)) ∧
    getLevelColor level ++ getLevelStyle level = levelCode level ∧
    (∀ t cfg, tag = some t → lg.tag_configs_ t = some cfg →
      tagCode lg tag = cfg.style ++ cfg.color) ∧
    (∀ t, tag = some t → lg.tag_configs_ t = none → tagCode lg tag = ansi.cyan) ∧
    (∀ t, tag = some t → (lg.show_tags_ = true ∧ t ≠ "") →
      tagBracket lg tag (tagCode lg tag) ansi.reset =
        tagCode lg tag ++ "[" ++ t ++ "]" ++ ansi.reset) ∧
    log_entry (setColorMode lg .OFF) now level tag file line function message =
      time_str lg now ++ ("" ++ "[" ++ levelName level ++ "]" ++ "") ++
        tagBracket lg tag "" "" ++ location_info lg file line function ++ " " ++ message := by
  have hlevel := ne_off_of_admitted lg level tag hadm
  refine ⟨?_, levelColor_style_eq_levelCode level hlevel, ?_, ?_, ?_, ?_⟩
  · rw [log_of_admitted H lg w now level tag file line function message hadm,
      log_entry_eq lg now level tag file line function message hlevel]
    simp [hmode, lineWithCodes]
  · rintro t cfg rfl hcfg
    simp [tagCode, hcfg]
  · rintro t rfl hcfg
    simp [tagCode, hcfg]
  · rintro t rfl hshow
    simp only [tagBracket, if_pos hshow]
  · rw [log_entry_off (setColorMode lg .OFF) now level tag file line function message hlevel rfl,
      lineWithCodes_setColorMode]
    rfl

/-- Witness for C14: an `Error` call tagged `NETWORK` (configured blue) on the fresh
logger, whose colour mode is `TAG`. -/
theorem line_color_tag_witness :
    (Logger.init.color_mode_ = .TAG ∧ admitted Logger.init .Error (some "NETWORK") = true) ∧
    log simHost Logger.init ⟨"", simFS0⟩ sampleTime .Error (some "NETWORK")
        (some "/a/b/c.txt") 10 (some "f") (some "hello") =
      (Logger.init, dispatch simHost Logger.init ⟨"", simFS0⟩
        (time_str Logger.init sampleTime ++
          (levelCode .Error ++ "[" ++ levelName .Error ++ "]" ++ ansi.reset) ++
          tagBracket Logger.init (some "NETWORK") (tagCode Logger.init (some "NETWORK"))
            ansi.reset ++
          location_info Logger.init (some "/a/b/c.txt") 10 (some "f") ++ " " ++ "hello")) :=
  ⟨⟨rfl, by decide⟩,
    (line_color_tag simHost Logger.init ⟨"", simFS0⟩ sampleTime .Error (some "NETWORK")
      (some "/a/b/c.txt") 10 (some "f") "hello" rfl (by decide)).1⟩

/-- The witness line of C14, evaluated, and the same call with a tag that has no
`TagConfig`. -/
theorem line_color_tag_example :
    log_entry Logger.init sampleTime .Error (some "NETWORK") (some "/a/b/c.txt") 10 (some "f")
        "hello" =
      "[2024-01-02 03:04:05.006]\x1b[31m\x1b[1m[ERROR]\x1b[0m\x1b[34m[NETWORK]\x1b[0m[c.txt:10-f] hello" ∧
    log_entry Logger.init sampleTime .Info (some "MAIN") (some "/a/b/c.txt") 10 (some "f")
        "hello" =
      "[2024-01-02 03:04:05.006]\x1b[32m[INFO]\x1b[0m\x1b[36m[MAIN]\x1b[0m[c.txt:10-f] hello" :=
  ⟨by rfl, by rfl⟩

/-! ## The timestamp prefix -/

theorem fixedDigits_length (w : Nat) : ∀ n, (fixedDigits w n).length = w := by
  induction w with
  | zero => intro n; rfl
  | succ w ih => intro n; simp [fixedDigits, ih]

theorem fixedDigits_zero (j : Nat) : fixedDigits j 0 = List.replicate j '0' := by
  induction j with
  | zero => rfl
  | succ j ih =>
    rw [fixedDigits, Nat.zero_div, ih, List.replicate_succ']
    rfl

/-- Leading digits of a small number are zeros. -/
theorem fixedDigits_pad (k : Nat) : ∀ (j n : Nat), n < 10 ^ k →
    fixedDigits (j + k) n = List.replicate j '0' ++ fixedDigits k n := by
  induction k with
  | zero =>
    intro j n hn
    have h0 : n = 0 := by simpa using hn
    subst h0
    simp [fixedDigits_zero, fixedDigits]
  | succ k ih =>
    intro j n hn
    have hdiv : n / 10 < 10 ^ k := by
      rw [Nat.div_lt_iff_lt_mul (by decide)]
      rw [pow_succ] at hn
      exact hn
    show fixedDigits (j + k) (n / 10) ++ [digit n] = _
    rw [ih j (n / 10) hdiv, fixedDigits, List.append_assoc]

/-- Printing a number of exactly `k + 1` digits gives these digits. -/
theorem toDigitsCore_fixedDigits (k : Nat) : ∀ (n f : Nat) (ds : List Char),
    n < 10 ^ (k + 1) → (k = 0 ∨ 10 ^ k ≤ n) → n < f →
    Nat.toDigitsCore 10 f n ds = fixedDigits (k + 1) n ++ ds := by
  induction k with
  | zero =>
    intro n f ds hlt _ hf
    obtain ⟨f, rfl⟩ : ∃ g, f = g + 1 := ⟨f - 1, by omega⟩
    have hn : n < 10 := by simpa using hlt
    rw [toDigitsCore_step, if_pos (by omega), digitChar_mod]
    simp [fixedDigits]
  | succ k ih =>
    intro n f ds hlt hge hf
    obtain ⟨f, rfl⟩ : ∃ g, f = g + 1 := ⟨f - 1, by omega⟩
    have hge1 : 10 ^ (k + 1) ≤ n := by
      rcases hge with h | h
      · exact absurd h (by omega)
      · exact h
    have hpos : 0 < 10 ^ k := Nat.pow_pos (by decide)
    have e1 : 10 ^ (k + 1) = 10 ^ k * 10 := pow_succ 10 k
    have e2 : 10 ^ (k + 1 + 1) = 10 ^ (k + 1) * 10 := pow_succ 10 (k + 1)
    have hdivlt : n / 10 < 10 ^ (k + 1) := by
      rw [Nat.div_lt_iff_lt_mul (by decide)]; omega
    have hdivge : 10 ^ k ≤ n / 10 := by
      rw [Nat.le_div_iff_mul_le (by decide)]; omega
    have hne : ¬ n / 10 = 0 := by omega
    rw [toDigitsCore_step, if_neg hne, digitChar_mod,
      ih (n / 10) f (digit n :: ds) hdivlt (Or.inr hdivge) (by omega)]
    show _ = (fixedDigits (k + 1) (n / 10) ++ [digit n]) ++ ds
    simp

/-- The decimal text of a number is the list of its digits. -/
theorem toString_eq_fixedDigits (n : Nat) :
    ∃ k, toString n = ⟨fixedDigits (k + 1) n⟩ ∧ n < 10 ^ (k + 1) ∧ (k = 0 ∨ 10 ^ k ≤ n) := by
  refine ⟨Nat.log 10 n, ?_, Nat.lt_pow_succ_log_self (by decide) n, ?_⟩
  · have hge : Nat.log 10 n = 0 ∨ 10 ^ Nat.log 10 n ≤ n := by
      by_cases h0 : n = 0
      · left; simp [h0]
      · right; exact Nat.pow_log_le_self 10 h0
    show (Nat.toDigits 10 n).asString = _
    congr 1
    have := toDigitsCore_fixedDigits (Nat.log 10 n) n (n + 1) []
      (Nat.lt_pow_succ_log_self (by decide) n) hge (by omega)
    simpa [Nat.toDigits] using this
  · by_cases h0 : n = 0
    · left; simp [h0]
    · right; exact Nat.pow_log_le_self 10 h0

/-- A number below `10 ^ w`, printed with width `w` and fill `'0'`, is its `w`
digits. -/
theorem setw0_fixedDigits (w n : Nat) (hw : 0 < w) (h : n < 10 ^ w) :
    setw0 w (toString n) = ⟨fixedDigits w n⟩ := by
  obtain ⟨k, hk, hlt, hge⟩ := toString_eq_fixedDigits n
  have hkw : k + 1 ≤ w := by
    rcases hge with h0 | hge
    · omega
    · have : 10 ^ k < 10 ^ w := lt_of_le_of_lt hge h
      have := (Nat.pow_lt_pow_iff_right (by decide : 1 < 10)).mp this
      omega
  obtain ⟨j, rfl⟩ : ∃ j, w = j + (k + 1) := ⟨w - (k + 1), by omega⟩
  rw [hk, fixedDigits_pad (k + 1) j n hlt]
  simp [setw0, fixedDigits_length]

/-- A year, month, day, hour, minute and second in the ranges of a calendar date
with a four-digit year are printed by `put_time` as the 19 characters of
`dateTime`. -/
theorem put_time_eq_dateTime (tm : Tm) (hy : tm.tm_year + 1900 ≤ 9999) (hmon : tm.tm_mon ≤ 11)
    (hday : tm.tm_mday ≤ 31) (hhour : tm.tm_hour ≤ 23) (hmin : tm.tm_min ≤ 59)
    (hsec : tm.tm_sec ≤ 60) : put_time tm = dateTime tm := by
  have hyear : toString (tm.tm_year + 1900) = ⟨fixedDigits 4 (tm.tm_year + 1900)⟩ := by
    show (Nat.toDigits 10 (tm.tm_year + 1900)).asString = _
    congr 1
    have := toDigitsCore_fixedDigits 3 (tm.tm_year + 1900) (tm.tm_year + 1900 + 1) []
      (by norm_num; omega) (Or.inr (by norm_num)) (by omega)
    simpa [Nat.toDigits] using this
  unfold put_time dateTime
  rw [hyear, setw0_fixedDigits 2 _ (by decide) (by norm_num; omega),
    setw0_fixedDigits 2 _ (by decide) (by norm_num; omega),
    setw0_fixedDigits 2 _ (by decide) (by norm_num; omega),
    setw0_fixedDigits 2 _ (by decide) (by norm_num; omega),
    setw0_fixedDigits 2 _ (by decide) (by norm_num; omega)]
  apply String.ext
  simp [String.data_append]

/-- For a count that is not negative, the part below the second that
`getHighPrecisionTimestamp` computes, divided by `d`, is the natural number one
expects. -/
theorem subsecond_of_nonneg (n d : Nat) (hd : 0 < d) :
    Int.tdiv ((n : Int) - Int.tdiv (n : Int) 1000000000 * 1000000000) (d : Int) =
      ((n % 1000000000 / d : Nat) : Int) := by
  have h1 : Int.tdiv (n : Int) 1000000000 = (n : Int) / 1000000000 :=
    Int.tdiv_eq_ediv (by omega) (by decide)
  have h2 : (n : Int) - (n : Int) / 1000000000 * 1000000000 = ((n % 1000000000 : Nat) : Int) := by
    push_cast
    omega
  rw [h1, h2, Int.tdiv_eq_ediv (by omega) (by omega)]
  push_cast
  rfl

/-- For a count that is not negative, the fractional part `getHighPrecisionTimestamp`
prints is the suffix `fraction` of the specification. -/
theorem timestamp_eq (lg : Logger) (now : TimePoint) (hepoch : 0 ≤ now.since_epoch) :
    getHighPrecisionTimestamp lg now =
      "[" ++ put_time now.tm ++ fraction lg.timestamp_precision_ now.since_epoch.toNat ++ "]" := by
  obtain ⟨n, hn⟩ := Int.eq_ofNat_of_zero_le hepoch
  unfold getHighPrecisionTimestamp fraction
  rw [hn]
  simp only [Int.toNat_ofNat]
  cases lg.timestamp_precision_ with
  | SECONDS => simp
  | MILLISECONDS =>
    have hm : n % 1000000000 / 1000000 = n / 1000000 % 1000 := by omega
    have hs := subsecond_of_nonneg n 1000000 (by decide)
    simp only [Nat.cast_ofNat] at hs
    simp only [hs, hm]
    show _ ++ "." ++ setw0 3 (toString (n / 1000000 % 1000)) ++ "]" = _
    rw [setw0_fixedDigits 3 _ (by decide) (by norm_num; omega)]
    simp [String.append_assoc]
  | MICROSECONDS =>
    have hm : n % 1000000000 / 1000 = n / 1000 % 1000000 := by omega
    have hs := subsecond_of_nonneg n 1000 (by decide)
    simp only [Nat.cast_ofNat] at hs
    simp only [hs, hm]
    show _ ++ "." ++ setw0 6 (toString (n / 1000 % 1000000)) ++ "]" = _
    rw [setw0_fixedDigits 6 _ (by decide) (by norm_num; omega)]
    simp [String.append_assoc]

/-- Counterexample to claim C15 as stated.  Half a second before the epoch the count
is negative, the truncating `duration_cast` leaves -500 milliseconds, and the
timestamp is `[1970-01-01 00:00:00.-500]`: after the point stand four characters, the
first a minus sign, not three digits.  So does the reading of a host whose clock
shows the year 2500, where the 64-bit count has wrapped to a negative number. -/
theorem timestamp_fraction_counterexample :
    preEpochTime.since_epoch = -500000000 ∧
    to_time_t preEpochTime.since_epoch = 0 ∧
    getHighPrecisionTimestamp (setTimestampPrecision Logger.init .MILLISECONDS) preEpochTime =
      "[1970-01-01 00:00:00.-500]" ∧
    (¬ ∃ n : Nat,
      getHighPrecisionTimestamp (setTimestampPrecision Logger.init .MILLISECONDS) preEpochTime =
        "[" ++ dateTime preEpochTime.tm ++ "." ++ ⟨fixedDigits 3 n⟩ ++ "]") ∧
    getHighPrecisionTimestamp (setTimestampPrecision Logger.init .MICROSECONDS) preEpochTime =
      "[1970-01-01 00:00:00.-500000]" ∧
    wrappedTime.since_epoch = -1721518473709551616 ∧
    to_time_t wrappedTime.since_epoch = -1721518473 ∧
    getHighPrecisionTimestamp (setTimestampPrecision Logger.init .MILLISECONDS) wrappedTime =
      "[1915-06-14 00:25:27.-709]" := by
  refine ⟨by rfl, by rfl, by rfl, ?_, by rfl, by rfl, by rfl, by rfl⟩
  rintro ⟨n, hn⟩
  have hlen := congrArg String.length hn
  have h1 : (getHighPrecisionTimestamp (setTimestampPrecision Logger.init .MILLISECONDS)
      preEpochTime).length = 26 := by rfl
  have h2 : ∀ tm : Tm, ("[" ++ dateTime tm ++ "." ++ (⟨fixedDigits 3 n⟩ : String) ++
      "]").length = 25 := by
    intro tm
    have hd : (dateTime tm).length = 19 := by
      simp [dateTime, String.length, fixedDigits_length]
    have hf : (⟨fixedDigits 3 n⟩ : String).length = 3 := fixedDigits_length 3 n
    rw [String.length_append, String.length_append, String.length_append,
      String.length_append, hd, hf]
    rfl
  rw [h1, h2 preEpochTime.tm] at hlen
  exact absurd hlen (by decide)

/-- Claim C15, amended.  For a clock reading whose count of nanoseconds since the
epoch is not negative, and whose local time is a calendar date with a four-digit
year, the timestamp is `"["`, the 19 characters `YYYY-MM-DD HH:MM:SS`, the fraction
and `"]"`: the fraction is empty for `SECONDS`, a point and the three digits of the
millisecond part for `MILLISECONDS`, a point and the six digits of the
microsecond part for `MICROSECONDS`.  The line of a call holds the timestamp,
right behind the colour of the line if any, when timestamps are on, and is the
same line without it when they are off. -/
theorem timestamp_format (lg : Logger) (now : TimePoint) (hepoch : 0 ≤ now.since_epoch)
    (hy : now.tm.tm_year + 1900 ≤ 9999) (hmon : now.tm.tm_mon ≤ 11)
    (hday : now.tm.tm_mday ≤ 31) (hhour : now.tm.tm_hour ≤ 23) (hmin : now.tm.tm_min ≤ 59)
    (hsec : now.tm.tm_sec ≤ 60) :
    getHighPrecisionTimestamp lg now =
      "[" ++ dateTime now.tm ++ fraction lg.timestamp_precision_ now.since_epoch.toNat ++
        "]" ∧
    (dateTime now.tm).length = 19 ∧
    fraction .SECONDS now.since_epoch.toNat = "" ∧
    fraction .MILLISECONDS now.since_epoch.toNat =
      "." ++ ⟨fixedDigits 3 (now.since_epoch.toNat / 1000000 % 1000)⟩ ∧
    (fraction .MILLISECONDS now.since_epoch.toNat).length = 1 + 3 ∧
    fraction .MICROSECONDS now.since_epoch.toNat =
      "." ++ ⟨fixedDigits 6 (now.since_epoch.toNat / 1000 % 1000000)⟩ ∧
    (fraction .MICROSECONDS now.since_epoch.toNat).length = 1 + 6 ∧
    (lg.show_timestamp_ = true → time_str lg now = getHighPrecisionTimestamp lg now) ∧
    (lg.show_timestamp_ = false → time_str lg now = "") ∧
    (∀ (level : LogLevel) (tag file : Option String) (line : Int) (function : Option String)
      (message : String), level ≠ .OFF →
      ∃ rest : String,
        log_entry (enableTimestamp lg true) now level tag file line function message =
          (if lg.color_mode_ = .LINE then getLevelColor level ++ getLevelStyle level else "") ++
            getHighPrecisionTimestamp lg now ++ rest ∧
        log_entry (enableTimestamp lg false) now level tag file line function message =
          (if lg.color_mode_ = .LINE then getLevelColor level ++ getLevelStyle level else "") ++
            rest) := by
  refine ⟨?_, ?_, rfl, rfl, ?_, rfl, ?_, ?_, ?_, ?_⟩
  · rw [timestamp_eq lg now hepoch, put_time_eq_dateTime now.tm hy hmon hday hhour hmin hsec]
  · simp [dateTime, String.length, fixedDigits_length]
  · simp [fraction, String.length, String.data_append, fixedDigits_length]
  · simp [fraction, String.length, String.data_append, fixedDigits_length]
  · intro h
    simp [time_str, h]
  · intro h
    simp [time_str, h]
  · intro level tag file line function message hlevel
    refine ⟨(if lg.color_mode_ = .TAG then levelCode level else "") ++ "[" ++ levelName level ++
      "]" ++ (if lg.color_mode_ = .TAG then ansi.reset else "") ++
      tagBracket lg tag (if lg.color_mode_ = .TAG then tagCode lg tag else "")
        (if lg.color_mode_ = .TAG then ansi.reset else "") ++
      location_info lg file line function ++ " " ++ message ++
      (if lg.color_mode_ = .LINE then ansi.reset else ""), ?_, ?_⟩
    · rw [log_entry_eq _ now level tag file line function message hlevel,
        levelColor_style_eq_levelCode level hlevel]
      simp only [lineWithCodes, time_str, enableTimestamp, if_true, String.append_assoc]
      rfl
    · rw [log_entry_eq _ now level tag file line function message hlevel,
        levelColor_style_eq_levelCode level hlevel]
      simp only [lineWithCodes, time_str, enableTimestamp, String.append_assoc]
      simp only [Bool.false_eq_true, if_false, String.empty_append]
      rfl

/-- Witness for the amended C15: the reading 2024-01-02 03:04:05.006007 with the
precision of the fresh logger, `MILLISECONDS`. -/
theorem timestamp_format_witness :
    (0 ≤ sampleTime.since_epoch ∧
      sampleTime.tm.tm_year + 1900 ≤ 9999 ∧ sampleTime.tm.tm_mon ≤ 11 ∧
      sampleTime.tm.tm_mday ≤ 31 ∧ sampleTime.tm.tm_hour ≤ 23 ∧ sampleTime.tm.tm_min ≤ 59 ∧
      sampleTime.tm.tm_sec ≤ 60) ∧
    getHighPrecisionTimestamp Logger.init sampleTime =
      "[" ++ dateTime sampleTime.tm ++
        fraction Logger.init.timestamp_precision_ sampleTime.since_epoch.toNat ++ "]" :=
  ⟨by decide,
    (timestamp_format Logger.init sampleTime (by decide) (by decide) (by decide) (by decide)
      (by decide) (by decide) (by decide)).1⟩

/-- The timestamps of the sample reading in the three precisions, evaluated. -/
theorem timestamp_example :
    getHighPrecisionTimestamp (setTimestampPrecision Logger.init .SECONDS) sampleTime =
      "[2024-01-02 03:04:05]" ∧
    getHighPrecisionTimestamp (setTimestampPrecision Logger.init .MILLISECONDS) sampleTime =
      "[2024-01-02 03:04:05.006]" ∧
    getHighPrecisionTimestamp (setTimestampPrecision Logger.init .MICROSECONDS) sampleTime =
      "[2024-01-02 03:04:05.006007]" :=
  ⟨by rfl, by rfl, by rfl⟩

/-! ## Tag configuration -/

/-- Claim C16.  After `configureTag(t, color, style, enabled)` the `TagConfig` of `t`
is exactly `(color, style, enabled)`, whatever it was before; the `TagConfig` of
every other tag and every other member of the logger are unchanged. -/
theorem configureTag_upsert (lg : Logger) (t color style : String) (enabled : Bool) :
    (configureTag lg t color style enabled).tag_configs_ t = some ⟨color, style, enabled⟩ ∧
    (∀ u, u ≠ t → (configureTag lg t color style enabled).tag_configs_ u = lg.tag_configs_ u) ∧
    configureTag lg t color style enabled =
      { lg with tag_configs_ := (configureTag lg t color style enabled).tag_configs_ } ∧
    (configureTag lg t color style enabled).current_level_ = lg.current_level_ ∧
    (configureTag lg t color style enabled).console_output_ = lg.console_output_ ∧
    (configureTag lg t color style enabled).file_output_ = lg.file_output_ ∧
    (configureTag lg t color style enabled).file_path_ = lg.file_path_ ∧
    (configureTag lg t color style enabled).tag_levels_ = lg.tag_levels_ ∧
    (configureTag lg t color style enabled).color_mode_ = lg.color_mode_ ∧
    (configureTag lg t color style enabled).show_timestamp_ = lg.show_timestamp_ ∧
    (configureTag lg t color style enabled).timestamp_precision_ = lg.timestamp_precision_ ∧
    (configureTag lg t color style enabled).location_mode_ = lg.location_mode_ ∧
    (configureTag lg t color style enabled).base_path_ = lg.base_path_ ∧
    (configureTag lg t color style enabled).show_tags_ = lg.show_tags_ := by
  refine ⟨by simp [configureTag, mapInsert], fun u hu => by simp [configureTag, mapInsert, hu],
    rfl, rfl, rfl, rfl, rfl, rfl, rfl, rfl, rfl, rfl, rfl, rfl⟩

/-- Witness for C16: `configureTag` with `enabled = true` on the tag `SYSTEM` after
it was disabled enables it again and leaves `NETWORK` as it was. -/
theorem configureTag_upsert_witness :
    (enableTag Logger.init "SYSTEM" false).tag_configs_ "SYSTEM" =
        some ⟨ansi.yellow, "", false⟩ ∧
    (configureTag (enableTag Logger.init "SYSTEM" false) "SYSTEM" ansi.red ansi.bold
        true).tag_configs_ "SYSTEM" = some ⟨ansi.red, ansi.bold, true⟩ ∧
    (configureTag (enableTag Logger.init "SYSTEM" false) "SYSTEM" ansi.red ansi.bold
        true).tag_configs_ "NETWORK" =
      (enableTag Logger.init "SYSTEM" false).tag_configs_ "NETWORK" :=
  ⟨by decide,
    (configureTag_upsert (enableTag Logger.init "SYSTEM" false) "SYSTEM" ansi.red ansi.bold
      true).1,
    (configureTag_upsert (enableTag Logger.init "SYSTEM" false) "SYSTEM" ansi.red ansi.bold
      true).2.1 "NETWORK" (by decide)⟩

/-- Claim C17.  `enableTag(t, b)` on a tag that has a `TagConfig` sets its `enabled`
to `b` and keeps its colour and style; on a tag that has none it stores `(cyan, no
style, b)`; the `TagConfig` of every other tag is unchanged. -/
theorem enableTag_effect (lg : Logger) (t : String) (b : Bool) :
    (∀ cfg, lg.tag_configs_ t = some cfg →
      (enableTag lg t b).tag_configs_ t = some ⟨cfg.color, cfg.style, b⟩) ∧
    (lg.tag_configs_ t = none →
      (enableTag lg t b).tag_configs_ t = some ⟨ansi.cyan, "", b⟩) ∧
    (∀ u, u ≠ t → (enableTag lg t b).tag_configs_ u = lg.tag_configs_ u) := by
  refine ⟨fun cfg h => ?_, fun h => ?_, fun u hu => ?_⟩
  · simp [enableTag, h, mapInsert]
  · simp [enableTag, h, mapInsert]
  · unfold enableTag
    cases h : lg.tag_configs_ t <;> simp [mapInsert, hu]

/-- Witness for C17: disabling the configured tag `SYSTEM` and the unknown tag
`AUDIO` on the fresh logger. -/
theorem enableTag_effect_witness :
    (Logger.init.tag_configs_ "SYSTEM" = some ⟨ansi.yellow, "", true⟩ ∧
      (enableTag Logger.init "SYSTEM" false).tag_configs_ "SYSTEM" =
        some ⟨(⟨ansi.yellow, "", true⟩ : TagConfig).color,
          (⟨ansi.yellow, "", true⟩ : TagConfig).style, false⟩) ∧
    (Logger.init.tag_configs_ "AUDIO" = none ∧
      (enableTag Logger.init "AUDIO" false).tag_configs_ "AUDIO" =
        some ⟨ansi.cyan, "", false⟩) ∧
    (enableTag Logger.init "SYSTEM" false).tag_configs_ "UI" = Logger.init.tag_configs_ "UI" :=
  ⟨⟨by decide, (enableTag_effect Logger.init "SYSTEM" false).1 _ (by decide)⟩,
    ⟨by decide, (enableTag_effect Logger.init "AUDIO" false).2.1 (by decide)⟩,
    (enableTag_effect Logger.init "SYSTEM" false).2.2 "UI" (by decide)⟩

/-! ## Dispatch to the sinks -/

/-- In the model file system, stream insertion appends the text to the file. -/
theorem simHost_write_appends (fs : SimFS) (path content text : String)
    (h : fs path = some (Node.file content)) :
    simHost.ofstream_write fs path text path = some (Node.file (content ++ text)) ∧
    ∀ q, q ≠ path → simHost.ofstream_write fs path text q = fs q := by
  constructor
  · simp [simHost, h]
  · intro q hq
    simp [simHost, h, hq]

/-- Claim C18.  An admitted call appends its entry and one line feed to `std::cerr`
when console output is on, and leaves `std::cerr` as it was when it is off; it
inserts the same entry and one line feed into the file stream when a stream is
open, and leaves the file system as it was when none is.  A call that is not
admitted changes neither. -/
theorem dispatch_sinks (H : Host FS) (lg : Logger) (w : World FS) (now : TimePoint)
    (level : LogLevel) (tag file : Option String) (line : Int)
    (function formatted : Option String) (message : String) :
    (admitted lg level tag = true →
      (log H lg w now level tag file line function (some message)).1 = lg ∧
      (lg.console_output_ = true →
        (log H lg w now level tag file line function (some message)).2.cerr =
          w.cerr ++ log_entry lg now level tag file line function message ++ "\n") ∧
      (lg.console_output_ = false →
        (log H lg w now level tag file line function (some message)).2.cerr = w.cerr) ∧
      (∀ out, lg.file_output_ = some out → out.is_open = true →
        (log H lg w now level tag file line function (some message)).2.fs =
          H.ofstream_write w.fs out.path
            (log_entry lg now level tag file line function message ++ "\n")) ∧
      ((lg.file_output_ = none ∨ ∃ out, lg.file_output_ = some out ∧ out.is_open = false) →
        (log H lg w now level tag file line function (some message)).2.fs = w.fs)) ∧
    (admitted lg level tag = false →
      log H lg w now level tag file line function formatted = (lg, w)) := by
  refine ⟨fun hadm => ?_, fun hadm =>
    log_of_not_admitted H lg w now level tag file line function formatted hadm⟩
  rw [log_of_admitted H lg w now level tag file line function message hadm]
  refine ⟨rfl, fun hc => ?_, fun hc => ?_, fun out hout hopen => ?_, fun hnone => ?_⟩
  · cases hf : lg.file_output_ with
    | none => simp [dispatch, hc, hf]
    | some out => cases ho : out.is_open <;> simp [dispatch, hc, hf, ho]
  · cases hf : lg.file_output_ with
    | none => simp [dispatch, hc, hf]
    | some out => cases ho : out.is_open <;> simp [dispatch, hc, hf, ho]
  · cases hc : lg.console_output_ <;> simp [dispatch, hc, hout, hopen]
  · rcases hnone with hf | ⟨out, hf, ho⟩
    · cases hc : lg.console_output_ <;> simp [dispatch, hc, hf]
    · cases hc : lg.console_output_ <;> simp [dispatch, hc, hf, ho]

/-- Witness for C18: an `Error` call on the logger whose stream is open on
`"a.log"`, with console output on. -/
theorem dispatch_sinks_witness :
    (admitted openedSample.2.1 .Error none = true ∧
      openedSample.2.1.console_output_ = true ∧
      openedSample.2.1.file_output_ = some ⟨"a.log", true⟩) ∧
    (log simHost openedSample.2.1 ⟨"", openedSample.2.2⟩ sampleTime .Error none
        (some "/a/b/c.txt") 10 (some "f") (some "hello")).2.cerr =
      "" ++ log_entry openedSample.2.1 sampleTime .Error none (some "/a/b/c.txt") 10 (some "f")
        "hello" ++ "\n" ∧
    (log simHost openedSample.2.1 ⟨"", openedSample.2.2⟩ sampleTime .Error none
        (some "/a/b/c.txt") 10 (some "f") (some "hello")).2.fs =
      simHost.ofstream_write openedSample.2.2 "a.log"
        (log_entry openedSample.2.1 sampleTime .Error none (some "/a/b/c.txt") 10 (some "f")
          "hello" ++ "\n") :=
  ⟨⟨by decide, by rfl, by rfl⟩,
    ((dispatch_sinks simHost openedSample.2.1 ⟨"", openedSample.2.2⟩ sampleTime .Error none
      (some "/a/b/c.txt") 10 (some "f") none "hello").1 (by decide)).2.1 (by rfl),
    ((dispatch_sinks simHost openedSample.2.1 ⟨"", openedSample.2.2⟩ sampleTime .Error none
      (some "/a/b/c.txt") 10 (some "f") none "hello").1 (by decide)).2.2.2.1 ⟨"a.log", true⟩
      (by rfl) rfl⟩

/-- The witness call of C18, evaluated: what the console and the file `"a.log"` hold
afterwards. -/
theorem dispatch_sinks_example :
    (log simHost (setColorMode openedSample.2.1 .OFF) ⟨"", openedSample.2.2⟩ sampleTime .Error
        none (some "/a/b/c.txt") 10 (some "f") (some "hello")).2.cerr =
      "[2024-01-02 03:04:05.006][ERROR][c.txt:10-f] hello\n" ∧
    (log simHost (setColorMode openedSample.2.1 .OFF) ⟨"", openedSample.2.2⟩ sampleTime .Error
        none (some "/a/b/c.txt") 10 (some "f") (some "hello")).2.fs "a.log" =
      some (Node.file "[2024-01-02 03:04:05.006][ERROR][c.txt:10-f] hello\n") :=
  ⟨by rfl, by rfl⟩

/-! ## The tag gate and the empty tag -/

/-- Counterexample to claim C20 as stated.  After `enableTag("", false)` on the
fresh logger, a `Fatal` call whose tag is the empty string passes the level
threshold (the effective level is `Info`) and is suppressed all the same, because
of the `TagConfig` stored under the empty string: nothing reaches the console,
where the same call without tag writes its line. -/
theorem empty_tag_gate_counterexample :
    (enableTag Logger.init "" false).tag_configs_ "" = some ⟨ansi.cyan, "", false⟩ ∧
    getEffectiveLevel (enableTag Logger.init "" false) (some "") = .Info ∧
    admitted (enableTag Logger.init "" false) .Fatal (some "") = false ∧
    log simHost (enableTag Logger.init "" false) ⟨"", simFS0⟩ sampleTime .Fatal (some "")
        (some "/a/b/c.txt") 10 (some "f") (some "down") =
      (enableTag Logger.init "" false, ⟨"", simFS0⟩) ∧
    (log simHost (enableTag Logger.init "" false) ⟨"", simFS0⟩ sampleTime .Fatal none
        (some "/a/b/c.txt") 10 (some "f") (some "down")).2.cerr =
      "[2024-01-02 03:04:05.006]\x1b[35m\x1b[1m[FATAL]\x1b[0m[c.txt:10-f] down\n" :=
  ⟨by decide, by decide, by decide, by rfl, by rfl⟩

/-- Claim C20, amended.  The tag gate applies to every tag that is supplied, the
empty string included.  A call without tag is never suppressed because of a
`TagConfig`: its admission is that the level is not `OFF` and not below the global
level, whatever the tag configurations are.  A call whose tag is the empty string
is suppressed when a `TagConfig` with `enabled = false` is stored under the empty
string; when none is, its admission depends only on the level threshold. -/
theorem tag_gate_scope (lg : Logger) (level : LogLevel) :
    (admitted lg level none = true ↔ level ≠ .OFF ∧ lg.current_level_ ≤ level) ∧
    (∀ configs : String → Option TagConfig,
      admitted { lg with tag_configs_ := configs } level none = admitted lg level none) ∧
    (∀ cfg, lg.tag_configs_ "" = some cfg → cfg.enabled = false →
      admitted lg level (some "") = false) ∧
    ((∀ cfg, lg.tag_configs_ "" = some cfg → cfg.enabled = true) →
      (admitted lg level (some "") = true ↔
        level ≠ .OFF ∧ getEffectiveLevel lg (some "") ≤ level)) := by
  refine ⟨admitted_none lg level, fun configs => rfl,
    fun cfg hcfg hoff => admitted_of_disabled lg level "" cfg hcfg hoff, fun hen => ?_⟩
  rw [admitted_some]
  constructor
  · rintro ⟨h1, _, h3⟩
    exact ⟨h1, h3⟩
  · rintro ⟨h1, h3⟩
    exact ⟨h1, hen, h3⟩

/-- Witness for the amended C20: with the empty tag disabled, an untagged `Fatal`
call is admitted and a `Fatal` call with the empty tag is not; on the fresh logger
the empty tag has no `TagConfig` and passes at `Fatal`. -/
theorem tag_gate_scope_witness :
    (admitted (enableTag Logger.init "" false) .Fatal none = true ↔
      LogLevel.Fatal ≠ LogLevel.OFF ∧
        (enableTag Logger.init "" false).current_level_ ≤ LogLevel.Fatal) ∧
    ((enableTag Logger.init "" false).tag_configs_ "" = some ⟨ansi.cyan, "", false⟩ ∧
      admitted (enableTag Logger.init "" false) .Fatal (some "") = false) ∧
    ((∀ cfg, Logger.init.tag_configs_ "" = some cfg → cfg.enabled = true) ∧
      (admitted Logger.init .Fatal (some "") = true ↔
        LogLevel.Fatal ≠ LogLevel.OFF ∧
          getEffectiveLevel Logger.init (some "") ≤ LogLevel.Fatal)) :=
  ⟨(tag_gate_scope (enableTag Logger.init "" false) .Fatal).1,
    ⟨by decide,
      (tag_gate_scope (enableTag Logger.init "" false) .Fatal).2.2.1 ⟨ansi.cyan, "", false⟩
        (by decide) rfl⟩,
    ⟨by decide, (tag_gate_scope Logger.init .Fatal).2.2.2 (by decide)⟩⟩

/-! ## Creating the directory -/

theorem findLastIdx_lt (p : Char → Bool) (l : List Char) (i : Nat)
    (h : findLastIdx p l = some i) : i < l.length := by
  induction l generalizing i with
  | nil => simp [findLastIdx] at h
  | cons c cs ih =>
    unfold findLastIdx at h
    cases hcs : findLastIdx p cs with
    | some j =>
      simp only [hcs, Option.some.injEq] at h
      have := ih j hcs
      simp only [List.length_cons]
      omega
    | none =>
      simp only [hcs] at h
      split at h
      · simp only [Option.some.injEq] at h
        simp only [List.length_cons]
        omega
      · cases h

/-- The parent `createDirectoryRecursive` recurses on is strictly shorter than the
path. -/
theorem parent_shorter (path : String) (sep_pos : Nat)
    (h : find_last_of path ['/', '\\'] = some sep_pos) :
    (substrTo path sep_pos).length < path.length := by
  have hlt : sep_pos < path.data.length := findLastIdx_lt _ _ _ h
  show (path.data.take sep_pos).length < path.data.length
  rw [List.length_take]
  omega

/-- One step of `createDirectoryRecursive`, the recursive call made with one unit
of the depth bound less. -/
theorem createDirectoryRecursiveFuel_succ (H : Host FS) (fuel : Nat) (fs : FS) (path : String) :
    createDirectoryRecursiveFuel H (fuel + 1) fs path =
      if empty path then some (true, fs)
      else if directoryExists H fs path then some (true, fs)
      else
        match
          (match find_last_of path ['/', '\\'] with
          | some sep_pos =>
            if ¬ empty (substrTo path sep_pos) then
              createDirectoryRecursiveFuel H fuel fs (substrTo path sep_pos)
            else some (true, fs)
          | none => some (true, fs)) with
        | none => none
        | some (false, fs1) => some (false, fs1)
        | some (true, fs1) =>
          some (decide ((H.mkdir fs1 path).1 = .ok ∨ (H.mkdir fs1 path).1 = .eexist),
            (H.mkdir fs1 path).2) := rfl

/-- With a depth bound above the length of the path, `createDirectoryRecursive`
returns. -/
theorem createDirectoryRecursiveFuel_isSome (H : Host FS) (fuel : Nat) :
    ∀ (fs : FS) (path : String), path.length < fuel →
      ∃ r, createDirectoryRecursiveFuel H fuel fs path = some r := by
  induction fuel with
  | zero => intro fs path h; omega
  | succ fuel ih =>
    intro fs path hlen
    rw [createDirectoryRecursiveFuel_succ]
    split
    · exact ⟨_, rfl⟩
    · split
      · exact ⟨_, rfl⟩
      · have hparent : ∃ q,
            (match find_last_of path ['/', '\\'] with
            | some sep_pos =>
              if ¬ empty (substrTo path sep_pos) then
                createDirectoryRecursiveFuel H fuel fs (substrTo path sep_pos)
              else some (true, fs)
            | none => some (true, fs)) = some q := by
          cases hsep : find_last_of path ['/', '\\'] with
          | none => exact ⟨_, rfl⟩
          | some sep_pos =>
            simp only
            split
            · exact ih fs _ (by have := parent_shorter path sep_pos hsep; omega)
            · exact ⟨_, rfl⟩
        obtain ⟨⟨b, fs1⟩, hq⟩ := hparent
        rw [hq]
        cases b <;> exact ⟨_, rfl⟩

/-- A larger depth bound does not change what `createDirectoryRecursive` returns. -/
theorem createDirectoryRecursiveFuel_stable (H : Host FS) (fuel : Nat) :
    ∀ (fs : FS) (path : String) (r : Bool × FS),
      createDirectoryRecursiveFuel H fuel fs path = some r →
      ∀ k, createDirectoryRecursiveFuel H (fuel + k) fs path = some r := by
  induction fuel with
  | zero => intro fs path r h; simp [createDirectoryRecursiveFuel] at h
  | succ fuel ih =>
    intro fs path r h k
    rw [show fuel + 1 + k = (fuel + k) + 1 by omega, createDirectoryRecursiveFuel_succ]
    rw [createDirectoryRecursiveFuel_succ] at h
    split
    · simpa [*] using h
    · split
      · simpa [*] using h
      · simp only [*, if_false, Bool.false_eq_true] at h
        cases hsep : find_last_of path ['/', '\\'] with
        | none => simpa [hsep] using h
        | some sep_pos =>
          simp only [hsep] at h ⊢
          by_cases hne : ¬ empty (substrTo path sep_pos) = true
          · simp only [if_pos hne] at h ⊢
            cases hrec : createDirectoryRecursiveFuel H fuel fs (substrTo path sep_pos) with
            | none => simp [hrec] at h
            | some q =>
              rw [ih fs _ q hrec k]
              simpa [hrec] using h
          · simp only [if_neg hne] at h ⊢
            exact h

/-- Claim C25.  `createDirectoryRecursive` returns for every path and every host:
the parent it recurses on is strictly shorter than the path, so the depth
`path.length + 1` is never exhausted, and every larger depth bound gives the same
result. -/
theorem createDirectoryRecursive_terminates (H : Host FS) (fs : FS) (path : String) :
    (∃ r, createDirectoryRecursive H fs path = some r) ∧
    (∀ fuel, path.length < fuel →
      createDirectoryRecursiveFuel H fuel fs path = createDirectoryRecursive H fs path) ∧
    (∀ sep_pos, find_last_of path ['/', '\\'] = some sep_pos →
      (substrTo path sep_pos).length < path.length) := by
  obtain ⟨r, hr⟩ := createDirectoryRecursiveFuel_isSome H (path.length + 1) fs path (by omega)
  refine ⟨⟨r, hr⟩, fun fuel hfuel => ?_, fun sep_pos h => parent_shorter path sep_pos h⟩
  unfold createDirectoryRecursive
  rw [hr]
  have := createDirectoryRecursiveFuel_stable H (path.length + 1) fs path r hr
    (fuel - (path.length + 1))
  rwa [show path.length + 1 + (fuel - (path.length + 1)) = fuel by omega] at this

/-- Witness for C25: the path `"a/b/c"` in the model file system; its parent `"a/b"`
is shorter, and the depth bound 100 gives the result of the bound 6. -/
theorem createDirectoryRecursive_terminates_witness :
    ("a/b/c".length < 100 ∧ find_last_of "a/b/c" ['/', '\\'] = some 3) ∧
    createDirectoryRecursiveFuel simHost 100 simFS0 "a/b/c" =
      createDirectoryRecursive simHost simFS0 "a/b/c" ∧
    (substrTo "a/b/c" 3).length < "a/b/c".length :=
  ⟨by decide,
    (createDirectoryRecursive_terminates simHost simFS0 "a/b/c").2.1 100 (by decide),
    (createDirectoryRecursive_terminates simHost simFS0 "a/b/c").2.2 3 (by decide)⟩

/-- The recursion creates the missing ancestors first: on `"a/b/c"` in the file
system that holds only `"."`, the call succeeds and `"a"`, `"a/b"` and `"a/b/c"` are
directories afterwards. -/
theorem createDirectoryRecursive_example :
    (createDirectoryRecursive simHost simFS0 "a/b/c").map
        (fun r => (r.1, r.2 "a", r.2 "a/b", r.2 "a/b/c", r.2 "a/b/c/d")) =
      some (true, some Node.dir, some Node.dir, some Node.dir, none) := by
  rfl

/-! ## The directory step of `setLogDirectory` -/

/-- A directory that exists is accepted as it is: the file system is not touched. -/
theorem ensureDirectory_of_exists (H : Host FS) (fs : FS) (dir_path : String)
    (h : directoryExists H fs dir_path = true) :
    ensureDirectory H fs dir_path = some (true, fs) := by
  simp [ensureDirectory, h]

/-- On the empty path the directory step reports success and touches nothing. -/
theorem ensureDirectory_empty (H : Host FS) (fs : FS) :
    ensureDirectory H fs "" = some (true, fs) := by
  unfold ensureDirectory
  split
  · rfl
  · rfl

/-- In the model file system, a successful directory step leaves something at the
path, a directory or a regular file that was there before. -/
theorem ensureDirectory_simHost_exists (fs fs' : SimFS) (dir_path : String)
    (hne : dir_path ≠ "") (h : ensureDirectory simHost fs dir_path = some (true, fs')) :
    fs' dir_path = some Node.dir ∨ ∃ content, fs' dir_path = some (Node.file content) := by
  unfold ensureDirectory at h
  by_cases hex : directoryExists simHost fs dir_path = true
  · simp only [hex, not_true_eq_false, if_false, Option.some.injEq, Prod.mk.injEq,
      true_and] at h
    subst h
    left
    simpa [directoryExists, simHost] using hex
  · rw [if_pos hex] at h
    unfold createDirectoryRecursive at h
    rw [createDirectoryRecursiveFuel_succ] at h
    have hnempty : ¬ empty dir_path = true := fun he => hne ((empty_iff _).mp he)
    rw [if_neg hnempty, if_neg hex] at h
    split at h
    · cases h
    · simp at h
    · rename_i fs1 _
      simp only [Option.some.injEq, Prod.mk.injEq, decide_eq_true_eq] at h
      obtain ⟨hres, hfs⟩ := h
      subst hfs
      cases hnode : fs1 dir_path with
      | some node =>
        have hm : simHost.mkdir fs1 dir_path = (.eexist, fs1) := by simp [simHost, hnode]
        rw [hm]
        simp only [hnode]
        cases node with
        | dir => exact Or.inl rfl
        | file content => exact Or.inr ⟨content, rfl⟩
      | none =>
        by_cases hpar : parentIsDir fs1 dir_path = true
        · have hm : simHost.mkdir fs1 dir_path =
              (.ok, fun q => if q = dir_path then some Node.dir else fs1 q) := by
            simp [simHost, hnode, hpar]
          rw [hm]
          left
          simp
        · have hm : simHost.mkdir fs1 dir_path = (.error, fs1) := by
            simp [simHost, hnode, hpar]
          rw [hm] at hres
          simp at hres

/-- Evaluation for claim C21, which the code does not meet.  In the model file
system `"data"` is a regular file.  The directory step of `setLogDirectory` on
`"data"` finds no directory, `mkdir` reports that something exists there, and the
step reports success without changing the file system: `"data"` is still the
regular file, not a directory. -/
theorem ensureDirectory_accepts_regular_file :
    simFSFile "data" = some (Node.file "x") ∧
    directoryExists simHost simFSFile "data" = false ∧
    simHost.mkdir simFSFile "data" = (.eexist, simFSFile) ∧
    ensureDirectory simHost simFSFile "data" = some (true, simFSFile) ∧
    (setLogDirectory simHost Logger.init simFSFile sampleTime "data" "app" true false).map
        (fun r => r.1) = .ok false := by
  refine ⟨by rfl, by rfl, by rfl, by rfl, by rfl⟩

/-! ## The empty directory path -/

/-- Evaluation for claim C22, which the code does not meet.  On the empty directory
path the directory step reports success, whatever the host answers, and the join
of the path then calls `back()` on the empty string: the call has undefined
behaviour and returns no boolean. -/
theorem setLogDirectory_empty_faults (H : Host FS) (lg : Logger) (fs : FS) (now : TimePoint)
    ( file_prefix : String) (append daily_rotation : Bool) :
    ensureDirectory H fs "" = some (true, fs) ∧
    back? "" = none ∧
    setLogDirectory H lg fs now "" file_prefix append daily_rotation =
      .error .undefinedBehaviour := by
  refine ⟨ensureDirectory_empty H fs, rfl, ?_⟩
  unfold setLogDirectory
  rw [ensureDirectory_empty]
  simp only
  cases logFileName now file_prefix daily_rotation with
  | none => rfl
  | some filename => rfl

/-- The part of C22 the code does meet: for a directory path that is not empty,
and a date with a four-digit year under daily rotation, `setLogDirectory` returns
a boolean. -/
theorem setLogDirectory_returns (H : Host FS) (lg : Logger) (fs : FS) (now : TimePoint)
    (dir_path : String) ( file_prefix : String) (append daily_rotation : Bool)
    (hne : dir_path ≠ "")
    (hdate : daily_rotation = true →
      now.tm.tm_year + 1900 ≤ 9999 ∧ now.tm.tm_mon ≤ 11 ∧ now.tm.tm_mday ≤ 31) :
    ∃ r, setLogDirectory H lg fs now dir_path file_prefix append daily_rotation = .ok r := by
  have hens : ∃ e, ensureDirectory H fs dir_path = some e := by
    unfold ensureDirectory
    split
    · exact createDirectoryRecursiveFuel_isSome H _ fs dir_path (by omega)
    · exact ⟨_, rfl⟩
  have hname : ∃ filename, logFileName now file_prefix daily_rotation = some filename := by
    unfold logFileName
    cases hrot : daily_rotation with
    | false => exact ⟨_, rfl⟩
    | true =>
      obtain ⟨hy, hm, hd⟩ := hdate hrot
      simp [strftime_Ymd_eq now.tm hy hm hd]
  obtain ⟨⟨b, fs1⟩, he⟩ := hens
  obtain ⟨filename, hn⟩ := hname
  have hpath : ∃ full_path, fullPath dir_path filename = some full_path := by
    unfold fullPath
    cases hb : back? dir_path with
    | some c => exact ⟨_, rfl⟩
    | none =>
      exfalso
      apply hne
      apply String.ext
      simpa [back?] using hb
  obtain ⟨full_path, hp⟩ := hpath
  unfold setLogDirectory
  rw [he]
  cases b with
  | false => exact ⟨_, rfl⟩
  | true =>
    simp only [hn, hp]
    exact ⟨_, rfl⟩

/-! ## Emission and the configuration -/

/-- Claim C23.  A call of `log` returns the logger it was given, admitted or not,
with a known tag or one never seen, with or without a formatted message: the
global level, the tag levels, the tag configurations, the colour mode, the
timestamp settings, the location mode, the base path, the tag display, the
console switch, the file stream and the stored path are what they were.  No
`TagConfig` and no tag level is created for the tag of the call. -/
theorem log_keeps_configuration (H : Host FS) (lg : Logger) (w : World FS) (now : TimePoint)
    (level : LogLevel) (tag file : Option String) (line : Int)
    (function formatted : Option String) :
    (log H lg w now level tag file line function formatted).1 = lg ∧
    (log H lg w now level tag file line function formatted).1.current_level_ =
      lg.current_level_ ∧
    (log H lg w now level tag file line function formatted).1.tag_levels_ = lg.tag_levels_ ∧
    (log H lg w now level tag file line function formatted).1.tag_configs_ =
      lg.tag_configs_ ∧
    (log H lg w now level tag file line function formatted).1.color_mode_ = lg.color_mode_ ∧
    (log H lg w now level tag file line function formatted).1.show_timestamp_ =
      lg.show_timestamp_ ∧
    (log H lg w now level tag file line function formatted).1.timestamp_precision_ =
      lg.timestamp_precision_ ∧
    (log H lg w now level tag file line function formatted).1.location_mode_ =
      lg.location_mode_ ∧
    (log H lg w now level tag file line function formatted).1.base_path_ = lg.base_path_ ∧
    (log H lg w now level tag file line function formatted).1.show_tags_ = lg.show_tags_ ∧
    (log H lg w now level tag file line function formatted).1.console_output_ =
      lg.console_output_ ∧
    (log H lg w now level tag file line function formatted).1.file_output_ =
      lg.file_output_ ∧
    getLogFilePath (log H lg w now level tag file line function formatted).1 =
      getLogFilePath lg := by
  have h : (log H lg w now level tag file line function formatted).1 = lg := by
    unfold log
    split
    · rfl
    · cases formatted <;> rfl
  rw [h]
  exact ⟨rfl, rfl, rfl, rfl, rfl, rfl, rfl, rfl, rfl, rfl, rfl, rfl, rfl⟩

/-- The sample call with the tag `AUDIO`, which has no entry in either map, leaves
both maps without one. -/
theorem log_unknown_tag_example :
    (log simHost Logger.init ⟨"", simFS0⟩ sampleTime .Info (some "AUDIO") (some "/a/b/c.txt")
        10 (some "f") (some "hello")).1.tag_configs_ "AUDIO" = none ∧
    (log simHost Logger.init ⟨"", simFS0⟩ sampleTime .Info (some "AUDIO") (some "/a/b/c.txt")
        10 (some "f") (some "hello")).1.tag_levels_ "AUDIO" = none ∧
    (log simHost Logger.init ⟨"", simFS0⟩ sampleTime .Info (some "AUDIO") (some "/a/b/c.txt")
        10 (some "f") (some "hello")).2.cerr =
      "[2024-01-02 03:04:05.006]\x1b[32m[INFO]\x1b[0m\x1b[36m[AUDIO]\x1b[0m[c.txt:10-f] hello\n" :=
  ⟨by rfl, by rfl, by rfl⟩

/-- Claim C24.  Two loggers with the same global level, the same tag levels and the
same enabled flags in their tag configurations admit the same calls, however they
differ in the colour mode, the timestamp settings, the location mode, the base
path, the tag display, the colours and styles of the tags, the console switch and
the file sink; hence, for every file, line, function and message, `log` takes the
early return on one exactly when it does on the other. -/
theorem admission_depends_only_on_filter_state (H : Host FS) (lg1 lg2 : Logger)
    (level : LogLevel) (tag : Option String)
    (hlevel : lg1.current_level_ = lg2.current_level_)
    (hlevels : lg1.tag_levels_ = lg2.tag_levels_)
    (henabled : ∀ t, (lg1.tag_configs_ t).map TagConfig.enabled =
      (lg2.tag_configs_ t).map TagConfig.enabled) :
    admitted lg1 level tag = admitted lg2 level tag ∧
    (admitted lg1 level tag = true ↔ admitted lg2 level tag = true) ∧
    (admitted lg1 level tag = false →
      ∀ (w1 w2 : World FS) (now1 now2 : TimePoint) (file1 file2 : Option String)
        (line1 line2 : Int) (function1 function2 formatted1 formatted2 : Option String),
        log H lg1 w1 now1 level tag file1 line1 function1 formatted1 = (lg1, w1) ∧
        log H lg2 w2 now2 level tag file2 line2 function2 formatted2 = (lg2, w2)) ∧
    (admitted lg1 level tag = true →
      ∀ (w1 w2 : World FS) (now1 now2 : TimePoint) (file1 file2 : Option String)
        (line1 line2 : Int) (function1 function2 : Option String) (message1 message2 : String),
        log H lg1 w1 now1 level tag file1 line1 function1 (some message1) =
          (lg1, dispatch H lg1 w1
            (log_entry lg1 now1 level tag file1 line1 function1 message1)) ∧
        log H lg2 w2 now2 level tag file2 line2 function2 (some message2) =
          (lg2, dispatch H lg2 w2
            (log_entry lg2 now2 level tag file2 line2 function2 message2))) := by
  have heq : admitted lg1 level tag = admitted lg2 level tag := by
    unfold admitted
    cases tag with
    | none => simp [getEffectiveLevel, hlevel]
    | some t =>
      have he := henabled t
      simp only [getEffectiveLevel, hlevel, hlevels]
      cases h1 : lg1.tag_configs_ t <;> cases h2 : lg2.tag_configs_ t <;>
        simp [h1, h2] at he ⊢
      simp [he]
  refine ⟨heq, by rw [heq], fun h w1 w2 now1 now2 file1 file2 line1 line2 function1 function2
    formatted1 formatted2 => ⟨log_of_not_admitted H lg1 w1 now1 level tag file1 line1 function1
      formatted1 h, log_of_not_admitted H lg2 w2 now2 level tag file2 line2 function2 formatted2
      (heq ▸ h)⟩, fun h w1 w2 now1 now2 file1 file2 line1 line2 function1 function2 message1
    message2 => ⟨log_of_admitted H lg1 w1 now1 level tag file1 line1 function1 message1 h,
      log_of_admitted H lg2 w2 now2 level tag file2 line2 function2 message2 (heq ▸ h)⟩⟩

/-- Witness for C24: the fresh logger and the same logger with colours off, no
timestamps, no console and the tag `UI` recoloured admit the same `Debug` call
tagged `UI` (neither does). -/
theorem admission_depends_only_on_filter_state_witness :
    (Logger.init.current_level_ =
        (configureTag (consoleOutput (enableTimestamp (setColorMode Logger.init .OFF) false)
          false) "UI" ansi.red ansi.bold true).current_level_ ∧
      Logger.init.tag_levels_ =
        (configureTag (consoleOutput (enableTimestamp (setColorMode Logger.init .OFF) false)
          false) "UI" ansi.red ansi.bold true).tag_levels_) ∧
    admitted Logger.init .Debug (some "UI") =
      admitted (configureTag (consoleOutput (enableTimestamp (setColorMode Logger.init .OFF)
        false) false) "UI" ansi.red ansi.bold true) .Debug (some "UI") :=
  ⟨⟨rfl, rfl⟩,
    (admission_depends_only_on_filter_state simHost Logger.init
      (configureTag (consoleOutput (enableTimestamp (setColorMode Logger.init .OFF) false)
        false) "UI" ansi.red ansi.bold true) .Debug (some "UI") rfl rfl
      (by
        intro t
        by_cases h : t = "UI"
        · subst h; rfl
        · simp [configureTag, consoleOutput, enableTimestamp, setColorMode, mapInsert, h])).1⟩

end LiteLog
